import Mathlib

/-!
Shallow embedding of the AutoLabel Pro annotation engine (the v7.3 App
component, `YOLODetector.js` and `GroundingDINODetector.js`) and proofs of
the testable properties of its specification.

Modelling conventions:
* JS numbers are modelled as rationals (`ℚ`): every operation the claims
  touch is arithmetic on values produced by `+ - * / min max`, which is
  exact over `ℚ`.
* JS objects used as string-keyed maps (the `regions` object) are modelled
  as association lists in insertion order, matching JS object key order.
* `JSON.stringify`/`JSON.parse` pairs, used by the history stack purely to
  obtain deep copies, are modelled as the identity on the snapshot value.
* JS `Array.prototype.sort`, which is stable, is modelled by a stable
  insertion sort with the same comparator semantics.
-/

/-- Axis-aligned box sizes and positions in image pixel space.  Mirrors the
region objects of the App: `{ id, label, confidence, status, x, y, w, h }`. -/
structure Region where
  id : ℤ
  label : String
  confidence : ℚ
  status : String
  x : ℚ
  y : ℚ
  w : ℚ
  h : ℚ
  deriving DecidableEq, Repr

/-- An imported image: `{ id, name, width, height }` (url/base64 omitted:
no claim reads them). -/
structure Image where
  id : String
  name : String
  width : ℚ
  height : ℚ
  deriving DecidableEq, Repr

/-- The `regions` state object: image id ↦ ordered region list, kept as an
association list in insertion order (JS object key order). -/
abbrev RegionsByImage := List (String × List Region)

/-- `regions[imageId] || []` — lookup with empty-list default. -/
def rbiGet (m : RegionsByImage) (k : String) : List Region :=
  (m.lookup k).getD []

/-- `{ ...regions, [k]: v }` — replace the binding of `k` in place if
present (JS objects keep the original key position), else append. -/
def rbiSet (m : RegionsByImage) (k : String) (v : List Region) : RegionsByImage :=
  if (m.lookup k).isSome then
    m.map (fun p => if p.1 = k then (k, v) else p)
  else
    m ++ [(k, v)]

/-- `const clamp = (value, min, max) => Math.max(min, Math.min(max, value))`. -/
def clamp (value lo hi : ℚ) : ℚ := max lo (min hi value)

/-- `CANVAS_WIDTH = 800`. -/
def CANVAS_WIDTH : ℚ := 800

/-- `CANVAS_HEIGHT = 500`. -/
def CANVAS_HEIGHT : ℚ := 500

/-- Result of `getImageTransform`. -/
structure Transform where
  scale : ℚ
  offsetX : ℚ
  offsetY : ℚ
  deriving DecidableEq, Repr

/-- `getImageTransform(imageWidth, imageHeight)`: uniform fit-within scale
and centering offsets of the letterbox transform.  The JS guard
`if (!imageWidth || !imageHeight)` is the zero test on the dimensions. -/
def getImageTransform (imageWidth imageHeight : ℚ) : Transform :=
  if imageWidth = 0 ∨ imageHeight = 0 then ⟨1, 0, 0⟩
  else
    let imageAspect := imageWidth / imageHeight
    let canvasAspect := CANVAS_WIDTH / CANVAS_HEIGHT
    if canvasAspect < imageAspect then
      ⟨CANVAS_WIDTH / imageWidth, 0, (CANVAS_HEIGHT - CANVAS_WIDTH / imageAspect) / 2⟩
    else
      ⟨CANVAS_HEIGHT / imageHeight, (CANVAS_WIDTH - CANVAS_HEIGHT * imageAspect) / 2, 0⟩

/-- The box part of `getScaledBoundingBox(region, imageWidth, imageHeight)`:
image-space box to canvas-space box. -/
structure CanvasBox where
  x : ℚ
  y : ℚ
  w : ℚ
  h : ℚ
  deriving DecidableEq, Repr

/-- `getScaledBoundingBox(region, imageWidth, imageHeight)`. -/
def getScaledBoundingBox (region : Region) (imageWidth imageHeight : ℚ) : CanvasBox :=
  let t := getImageTransform imageWidth imageHeight
  ⟨region.x * t.scale + t.offsetX, region.y * t.scale + t.offsetY,
   region.w * t.scale, region.h * t.scale⟩

/-- `canvasToImageCoords(canvasX, canvasY, imageWidth, imageHeight)`. -/
def canvasToImageCoords (canvasX canvasY imageWidth imageHeight : ℚ) : ℚ × ℚ :=
  let t := getImageTransform imageWidth imageHeight
  ((canvasX - t.offsetX) / t.scale, (canvasY - t.offsetY) / t.scale)

lemma getImageTransform_scale_pos (imageWidth imageHeight : ℚ)
    (hW : 0 < imageWidth) (hH : 0 < imageHeight) :
    0 < (getImageTransform imageWidth imageHeight).scale := by
  unfold getImageTransform
  rw [if_neg (by push_neg; exact ⟨ne_of_gt hW, ne_of_gt hH⟩)]
  dsimp only
  split
  · exact div_pos (by norm_num [CANVAS_WIDTH]) hW
  · exact div_pos (by norm_num [CANVAS_HEIGHT]) hH

/-- **C4** — For every box and positive image dimensions, mapping the box to
canvas space with `getScaledBoundingBox` and mapping its two corner points
back with `canvasToImageCoords` recovers the box exactly: the letterbox
transform is exactly inverted by the canvas-to-image mapping. -/
theorem canvasToImage_imageToCanvas_roundtrip (r : Region) (imageWidth imageHeight : ℚ)
    (hW : 0 < imageWidth) (hH : 0 < imageHeight) :
    canvasToImageCoords (getScaledBoundingBox r imageWidth imageHeight).x
        (getScaledBoundingBox r imageWidth imageHeight).y imageWidth imageHeight
      = (r.x, r.y) ∧
    canvasToImageCoords
        ((getScaledBoundingBox r imageWidth imageHeight).x
          + (getScaledBoundingBox r imageWidth imageHeight).w)
        ((getScaledBoundingBox r imageWidth imageHeight).y
          + (getScaledBoundingBox r imageWidth imageHeight).h) imageWidth imageHeight
      = (r.x + r.w, r.y + r.h) := by
  have hs := getImageTransform_scale_pos imageWidth imageHeight hW hH
  unfold canvasToImageCoords getScaledBoundingBox
  constructor <;> (dsimp only; rw [Prod.ext_iff]) <;>
    constructor <;> field_simp <;> ring

/-- Witness for C4 at a 1000 × 500 image and the box (10, 20, 30, 40). -/
theorem canvasToImage_imageToCanvas_roundtrip_witness :
    (0 : ℚ) < 1000 ∧ (0 : ℚ) < 500 ∧
    canvasToImageCoords (getScaledBoundingBox ⟨1, "car", 1, "manual", 10, 20, 30, 40⟩ 1000 500).x
        (getScaledBoundingBox ⟨1, "car", 1, "manual", 10, 20, 30, 40⟩ 1000 500).y 1000 500
      = (10, 20) :=
  ⟨by norm_num, by norm_num,
    (canvasToImage_imageToCanvas_roundtrip ⟨1, "car", 1, "manual", 10, 20, 30, 40⟩
      1000 500 (by norm_num) (by norm_num)).1⟩

/-- A candidate detection as built by `YOLODetector.runONNXInference`:
`{ x, y, width, height, confidence, classId }`. -/
structure Det where
  x : ℚ
  y : ℚ
  width : ℚ
  height : ℚ
  confidence : ℚ
  classId : ℕ
  deriving DecidableEq, Repr

/-- `calculateIoU(box1, box2)`: intersection area over union area of two
axis-aligned boxes, `0` when the union area is not positive. -/
def calculateIoU (box1 box2 : Det) : ℚ :=
  let x1 := max box1.x box2.x
  let y1 := max box1.y box2.y
  let x2 := min (box1.x + box1.width) (box2.x + box2.width)
  let y2 := min (box1.y + box1.height) (box2.y + box2.height)
  let intersection := max 0 (x2 - x1) * max 0 (y2 - y1)
  let union := box1.width * box1.height + box2.width * box2.height - intersection
  if 0 < union then intersection / union else 0

/-- One insertion step of the stable descending sort modelling
`detections.sort((a, b) => b.confidence - a.confidence)`: `d` is placed
before the first element with confidence ≤ its own, so that elements that
were originally earlier stay first on ties. -/
def insertByConf (d : Det) : List Det → List Det
  | [] => [d]
  | e :: l => if e.confidence ≤ d.confidence then d :: e :: l else e :: insertByConf d l

/-- Stable sort by confidence descending, ties broken by original index
(JS `Array.prototype.sort` is stable). -/
def sortByConfDesc (l : List Det) : List Det := l.foldr insertByConf []

/-- The greedy suppression walk of `nms`.  The source keeps a `suppressed`
index set and skips suppressed entries in both loops; since a suppressed
entry is never kept and never suppresses anything, this is the same as
removing the entries it suppresses from the remainder of the list as soon
as a candidate is kept, which is how the walk is written here.  `fuel`
bounds the recursion; it is called with the list length, which always
suffices because `filter` never lengthens a list. -/
def nmsGo (iouThreshold : ℚ) : ℕ → List Det → List Det
  | 0, _ => []
  | _ + 1, [] => []
  | fuel + 1, d :: rest =>
      d :: nmsGo iouThreshold fuel
        (rest.filter fun e =>
          !decide (e.classId = d.classId ∧ iouThreshold < calculateIoU d e))

/-- `nms(detections, iouThreshold)`: sort by confidence descending (stable),
then greedily keep candidates, suppressing later same-class candidates
whose IoU with a kept one exceeds the threshold. -/
def nms (detections : List Det) (iouThreshold : ℚ) : List Det :=
  nmsGo iouThreshold (sortByConfDesc detections).length (sortByConfDesc detections)

lemma nmsGo_subset (t : ℚ) : ∀ (fuel : ℕ) (l : List Det) (e : Det),
    e ∈ nmsGo t fuel l → e ∈ l := by
  intro fuel
  induction fuel with
  | zero => intro l e h; simp [nmsGo] at h
  | succ n ih =>
    intro l e h
    match l with
    | [] => simp [nmsGo] at h
    | d :: rest =>
      rw [nmsGo] at h
      rcases List.mem_cons.mp h with rfl | h2
      · exact List.mem_cons_self _ _
      · exact List.mem_cons_of_mem _ (List.mem_of_mem_filter (ih _ _ h2))

lemma nmsGo_pairwise (t : ℚ) : ∀ (fuel : ℕ) (l : List Det),
    (nmsGo t fuel l).Pairwise
      (fun a b => a.classId = b.classId → calculateIoU a b ≤ t) := by
  intro fuel
  induction fuel with
  | zero => intro l; simp [nmsGo]
  | succ n ih =>
    intro l
    match l with
    | [] => simp [nmsGo]
    | d :: rest =>
      rw [nmsGo]
      refine List.Pairwise.cons ?_ (ih _)
      intro b hb hclass
      have hf := nmsGo_subset t n _ b hb
      have := List.of_mem_filter hf
      simp only [Bool.not_eq_true', decide_eq_false_iff_not, not_and, not_lt] at this
      exact this hclass.symm

lemma calculateIoU_comm (a b : Det) : calculateIoU a b = calculateIoU b a := by
  simp only [calculateIoU]
  rw [max_comm a.x, max_comm a.y, min_comm (a.x + a.width), min_comm (a.y + a.height),
    add_comm (a.width * a.height)]

/-- **C3 (amended)** — Class-wise greedy NMS: (1) no two surviving boxes of
the same class have IoU above the threshold; (2) of exactly two same-class
candidates with IoU above the threshold, only the higher-confidence one
survives whichever of the two comes first in the input (on ties, the one
with the smaller original index); (3) two candidates of different classes
both survive regardless of their IoU. -/
theorem nms_classwise_suppression :
    (∀ (t : ℚ) (dets : List Det),
      (nms dets t).Pairwise
        (fun a b => a.classId = b.classId → calculateIoU a b ≤ t)) ∧
    (∀ (t : ℚ) (a b : Det), a.classId = b.classId → t < calculateIoU a b →
      (b.confidence ≤ a.confidence → nms [a, b] t = [a]) ∧
      (a.confidence < b.confidence → nms [a, b] t = [b])) ∧
    (∀ (t : ℚ) (a b : Det), a.classId ≠ b.classId →
      a ∈ nms [a, b] t ∧ b ∈ nms [a, b] t) := by
  refine ⟨fun t dets => nmsGo_pairwise t _ _, ?_, ?_⟩
  · intro t a b hclass hiou
    have hiou2 : t < calculateIoU b a := calculateIoU_comm a b ▸ hiou
    constructor
    · intro hconf
      simp [nms, sortByConfDesc, insertByConf, nmsGo, hconf, hclass, hiou,
        List.filter]
    · intro hlt
      have hconf : ¬ b.confidence ≤ a.confidence := not_le.mpr hlt
      simp [nms, sortByConfDesc, insertByConf, nmsGo, hconf, hclass, hiou2,
        List.filter]
  · intro t a b hne
    by_cases hconf : b.confidence ≤ a.confidence
    · simp [nms, sortByConfDesc, insertByConf, nmsGo, hconf, Ne.symm hne,
        List.filter]
    · simp [nms, sortByConfDesc, insertByConf, nmsGo, hconf, hne,
        List.filter]

/-- Witness for C3 at concrete two-candidate inputs: the same-class
overlapping pair keeps only the higher-confidence box in either input
order; a different-class pair keeps both. -/
theorem nms_classwise_suppression_witness :
    ((Det.mk 0 0 10 10 (9/10) 0).classId = (Det.mk 3 0 10 10 (8/10) 0).classId ∧
      (45/100 : ℚ) < calculateIoU (Det.mk 0 0 10 10 (9/10) 0) (Det.mk 3 0 10 10 (8/10) 0) ∧
      nms [Det.mk 0 0 10 10 (9/10) 0, Det.mk 3 0 10 10 (8/10) 0] (45/100)
        = [Det.mk 0 0 10 10 (9/10) 0] ∧
      nms [Det.mk 3 0 10 10 (8/10) 0, Det.mk 0 0 10 10 (9/10) 0] (45/100)
        = [Det.mk 0 0 10 10 (9/10) 0]) ∧
    ((Det.mk 0 0 10 10 (9/10) 0).classId ≠ (Det.mk 3 0 10 10 (8/10) 1).classId ∧
      Det.mk 0 0 10 10 (9/10) 0 ∈ nms [Det.mk 0 0 10 10 (9/10) 0, Det.mk 3 0 10 10 (8/10) 1] (45/100) ∧
      Det.mk 3 0 10 10 (8/10) 1 ∈ nms [Det.mk 0 0 10 10 (9/10) 0, Det.mk 3 0 10 10 (8/10) 1] (45/100)) :=
  ⟨⟨by decide, by norm_num [calculateIoU, max_def, min_def],
      (nms_classwise_suppression.2.1 (45/100) (Det.mk 0 0 10 10 (9/10) 0)
        (Det.mk 3 0 10 10 (8/10) 0) (by decide)
        (by norm_num [calculateIoU, max_def, min_def])).1 (by norm_num),
      (nms_classwise_suppression.2.1 (45/100) (Det.mk 3 0 10 10 (8/10) 0)
        (Det.mk 0 0 10 10 (9/10) 0) (by decide)
        (by norm_num [calculateIoU, max_def, min_def])).2 (by norm_num)⟩,
    by decide,
    (nms_classwise_suppression.2.2 (45/100) (Det.mk 0 0 10 10 (9/10) 0)
      (Det.mk 3 0 10 10 (8/10) 1) (by decide)).1,
    (nms_classwise_suppression.2.2 (45/100) (Det.mk 0 0 10 10 (9/10) 0)
      (Det.mk 3 0 10 10 (8/10) 1) (by decide)).2⟩

/-- **C3 counterexample** — the claim "for any two boxes of the same class
whose IoU exceeds the threshold only the higher-confidence one survives"
is false as a statement about every pair: in a three-box chain the middle
box (confidence 0.8) is suppressed by the top box, so the bottom box
(confidence 0.7) survives even though its IoU with the middle box exceeds
the threshold — the lower-confidence box of that pair survives and the
higher-confidence one does not. -/
theorem nms_higher_confidence_counterexample :
    (Det.mk 3 0 10 10 (8/10) 0).classId = (Det.mk 6 0 10 10 (7/10) 0).classId ∧
    (45/100 : ℚ) < calculateIoU (Det.mk 3 0 10 10 (8/10) 0) (Det.mk 6 0 10 10 (7/10) 0) ∧
    (Det.mk 6 0 10 10 (7/10) 0).confidence < (Det.mk 3 0 10 10 (8/10) 0).confidence ∧
    nms [Det.mk 0 0 10 10 (9/10) 0, Det.mk 3 0 10 10 (8/10) 0,
         Det.mk 6 0 10 10 (7/10) 0] (45/100)
      = [Det.mk 0 0 10 10 (9/10) 0, Det.mk 6 0 10 10 (7/10) 0] := by
  refine ⟨by decide, by norm_num [calculateIoU, max_def, min_def], by norm_num, ?_⟩
  norm_num [nms, sortByConfDesc, insertByConf, nmsGo, calculateIoU, max_def, min_def,
    List.filter]

/-- The slice of the App component state the claims touch.  Each field is
one `useState` hook of `AutoLabelProV7`. -/
structure AppState where
  images : List Image
  currentImageIndex : ℕ
  regions : RegionsByImage
  selectedRegions : List ℤ
  lastSelectedIndex : Option ℕ
  history : List RegionsByImage
  historyIndex : ℤ
  annotationMode : String
  defaultLabel : String
  isDrawing : Bool
  drawStart : Option (ℚ × ℚ)
  drawCurrent : Option (ℚ × ℚ)
  isDragging : Bool
  dragRegionId : Option ℤ
  dragOffset : ℚ × ℚ
  isResizing : Bool
  resizeRegionId : Option ℤ
  resizeHandle : Option String
  resizeStart : Option (ℚ × ℚ)
  deriving DecidableEq, Repr

/-- `currentImage = images[currentImageIndex] || null`. -/
def currentImage (s : AppState) : Option Image := s.images.get? s.currentImageIndex

/-- `currentRegions = currentImage ? regions[currentImage.id] || [] : []`. -/
def currentRegions (s : AppState) : List Region :=
  match currentImage s with
  | some img => rbiGet s.regions img.id
  | none => []

/-- `allRegionIds = currentRegions.map(r => r.id)`. -/
def allRegionIds (s : AppState) : List ℤ :=
  (currentRegions s).map (fun r => r.id)

/-- `saveToHistory(newRegions)`: slice off the redo tail, append the
snapshot, evict the oldest entry when over the 50-entry capacity, and point
at the new top.  `JSON.stringify` of the snapshot is the identity here
(it is only used for deep copying). -/
def saveToHistory (s : AppState) (newRegions : RegionsByImage) : AppState :=
  let newHistory := s.history.take (s.historyIndex + 1).toNat ++ [newRegions]
  let newHistory2 := if 50 < newHistory.length then newHistory.drop 1 else newHistory
  { s with history := newHistory2, historyIndex := (newHistory2.length : ℤ) - 1 }

/-- A committed mutation: `setRegions(newRegions); saveToHistory(newRegions)`,
the pair every commit site of the App executes. -/
def commitRegions (s : AppState) (newRegions : RegionsByImage) : AppState :=
  saveToHistory { s with regions := newRegions } newRegions

/-- `handleUndo`: no-op unless the pointer is above 0; else decrement it and
restore that snapshot without touching the history list. -/
def handleUndo (s : AppState) : AppState :=
  if 0 < s.historyIndex then
    { s with historyIndex := s.historyIndex - 1,
             regions := s.history.getD (s.historyIndex - 1).toNat [] }
  else s

/-- `handleRedo`: no-op unless the pointer is below the top; else increment
it and restore that snapshot. -/
def handleRedo (s : AppState) : AppState :=
  if s.historyIndex < (s.history.length : ℤ) - 1 then
    { s with historyIndex := s.historyIndex + 1,
             regions := s.history.getD (s.historyIndex + 1).toNat [] }
  else s

/-- `n` repetitions of a state transformer (e.g. pressing undo `n` times). -/
def iterateOp (f : AppState → AppState) : ℕ → AppState → AppState
  | 0, s => s
  | n + 1, s => iterateOp f n (f s)

/-- A run of consecutive committed mutations, one commit per snapshot. -/
def commitList (s : AppState) (rs : List RegionsByImage) : AppState :=
  rs.foldl commitRegions s

lemma listGetD_drop {α : Type} (l : List α) (m k : ℕ) (d : α) :
    (l.drop m).getD k d = l.getD (m + k) d := by
  rcases lt_or_ge (m + k) l.length with h | h
  · have hk : k < (l.drop m).length := by
      rw [List.length_drop]; omega
    rw [List.getD_eq_getElem _ _ hk, List.getD_eq_getElem _ _ h, List.getElem_drop]
  · have h2 : (l.drop m).length ≤ k := by
      rw [List.length_drop]; omega
    rw [List.getD_eq_default _ _ h2, List.getD_eq_default _ _ h]

lemma listGetD_take {α : Type} (l : List α) (m k : ℕ) (d : α) (hk : k < m) :
    (l.take m).getD k d = l.getD k d := by
  rcases lt_or_ge k l.length with h | h
  · have hk2 : k < (l.take m).length := by
      rw [List.length_take]; omega
    rw [List.getD_eq_getElem _ _ hk2, List.getD_eq_getElem _ _ h, List.getElem_take]
  · have h2 : (l.take m).length ≤ k := by
      rw [List.length_take]; omega
    rw [List.getD_eq_default _ _ h2, List.getD_eq_default _ _ h]

lemma getD_length_cons {α : Type} : ∀ (rs : List α) (r d : α),
    (r :: rs).getD rs.length d = rs.getLastD r
  | [], _, _ => rfl
  | a :: tl, r, d => by
    simp only [List.length_cons, List.getD_cons_succ, List.getLastD_cons]
    exact getD_length_cons tl a d

lemma iterate_undo_char : ∀ (n : ℕ) (s : AppState), (n : ℤ) ≤ s.historyIndex →
    (iterateOp handleUndo n s).history = s.history ∧
    (iterateOp handleUndo n s).historyIndex = s.historyIndex - n ∧
    (iterateOp handleUndo n s).regions
      = if n = 0 then s.regions else s.history.getD (s.historyIndex - n).toNat [] := by
  intro n
  induction n with
  | zero => intro s _; simp [iterateOp]
  | succ m ih =>
    intro s h
    have h0 : 0 < s.historyIndex := by
      have : ((m : ℤ) + 1) ≤ s.historyIndex := by push_cast at h; omega
      omega
    have hstep : handleUndo s = { s with historyIndex := s.historyIndex - 1, regions := s.history.getD (s.historyIndex - 1).toNat [] } := by
      rw [handleUndo, if_pos h0]
    rw [iterateOp, hstep]
    have hm : (m : ℤ) ≤ ({ s with historyIndex := s.historyIndex - 1, regions := s.history.getD (s.historyIndex - 1).toNat [] } : AppState).historyIndex := by
      simp only []
      push_cast at h
      omega
    obtain ⟨h1, h2, h3⟩ := ih _ hm
    refine ⟨by simpa using h1, ?_, ?_⟩
    · rw [h2]; simp only []; push_cast; ring
    · rw [h3]
      simp only [Nat.succ_ne_zero, if_false]
      by_cases hm0 : m = 0
      · subst hm0
        simp only [if_pos rfl]
        norm_num
      · rw [if_neg hm0]
        congr 1
        omega

lemma iterate_redo_char : ∀ (n : ℕ) (s : AppState),
    s.historyIndex + n ≤ (s.history.length : ℤ) - 1 →
    (iterateOp handleRedo n s).history = s.history ∧
    (iterateOp handleRedo n s).historyIndex = s.historyIndex + n ∧
    (iterateOp handleRedo n s).regions
      = if n = 0 then s.regions else s.history.getD (s.historyIndex + n).toNat [] := by
  intro n
  induction n with
  | zero => intro s _; simp [iterateOp]
  | succ m ih =>
    intro s h
    have h0 : s.historyIndex < (s.history.length : ℤ) - 1 := by push_cast at h; omega
    have hstep : handleRedo s = { s with historyIndex := s.historyIndex + 1, regions := s.history.getD (s.historyIndex + 1).toNat [] } := by
      rw [handleRedo, if_pos h0]
    rw [iterateOp, hstep]
    have hm : ({ s with historyIndex := s.historyIndex + 1, regions := s.history.getD (s.historyIndex + 1).toNat [] } : AppState).historyIndex + (m : ℤ) ≤ (s.history.length : ℤ) - 1 := by
      simp only []
      push_cast at h
      omega
    obtain ⟨h1, h2, h3⟩ := ih _ hm
    refine ⟨by simpa using h1, ?_, ?_⟩
    · rw [h2]; simp only []; push_cast; ring
    · rw [h3]
      simp only [Nat.succ_ne_zero, if_false]
      by_cases hm0 : m = 0
      · subst hm0
        simp only [if_pos rfl]
        norm_num
      · rw [if_neg hm0]
        congr 1
        omega

lemma commitRegions_top (s : AppState) (r : RegionsByImage)
    (hidx : s.historyIndex = (s.history.length : ℤ) - 1)
    (h1 : 1 ≤ s.history.length) (h50 : s.history.length ≤ 50) :
    (commitRegions s r).history
        = (s.history ++ [r]).drop (if s.history.length = 50 then 1 else 0) ∧
    (commitRegions s r).historyIndex = (min (s.history.length + 1) 50 : ℤ) - 1 ∧
    (commitRegions s r).regions = r ∧
    (commitRegions s r).history.length = min (s.history.length + 1) 50 := by
  have htn : (s.historyIndex + 1).toNat = s.history.length := by omega
  unfold commitRegions saveToHistory
  simp only [htn, List.take_length, List.length_append, List.length_cons, List.length_nil]
  by_cases hc : s.history.length = 50
  · rw [if_pos (by omega), if_pos hc]
    refine ⟨rfl, ?_, trivial, ?_⟩
    · rw [List.length_drop, List.length_append]
      simp only [List.length_cons, List.length_nil]
      push_cast
      omega
    · rw [List.length_drop, List.length_append]
      simp only [List.length_cons, List.length_nil]
      omega
  · rw [if_neg (by omega), if_neg hc]
    refine ⟨(List.drop_zero _).symm, ?_, trivial, ?_⟩
    · rw [List.length_append]
      simp only [List.length_cons, List.length_nil]
      push_cast
      omega
    · rw [List.length_append]
      simp only [List.length_cons, List.length_nil]
      omega

lemma commitList_top : ∀ (rs : List RegionsByImage) (s : AppState),
    s.historyIndex = (s.history.length : ℤ) - 1 →
    1 ≤ s.history.length → s.history.length ≤ 50 →
    (commitList s rs).history
        = (s.history ++ rs).drop
            (s.history.length + rs.length - min (s.history.length + rs.length) 50) ∧
    (commitList s rs).historyIndex
        = (min (s.history.length + rs.length) 50 : ℤ) - 1 ∧
    (commitList s rs).regions = rs.getLastD s.regions := by
  intro rs
  induction rs with
  | nil =>
    intro s hidx h1 h50
    simp only [commitList, List.foldl_nil, List.length_nil, Nat.add_zero,
      List.append_nil, List.getLastD_nil]
    refine ⟨?_, ?_, trivial⟩
    · have hm : s.history.length - min s.history.length 50 = 0 := by omega
      rw [hm, List.drop_zero]
    · rw [hidx]
      push_cast
      omega
  | cons r rs ih =>
    intro s hidx h1 h50
    obtain ⟨e1, e2, e3, e4⟩ := commitRegions_top s r hidx h1 h50
    have hstep : commitList s (r :: rs) = commitList (commitRegions s r) rs := by
      simp [commitList]
    rw [hstep]
    have hidx2 : (commitRegions s r).historyIndex
        = ((commitRegions s r).history.length : ℤ) - 1 := by
      rw [e2, e4]; push_cast; omega
    have h12 : 1 ≤ (commitRegions s r).history.length := by rw [e4]; omega
    have h502 : (commitRegions s r).history.length ≤ 50 := by rw [e4]; omega
    obtain ⟨g1, g2, g3⟩ := ih (commitRegions s r) hidx2 h12 h502
    by_cases h50eq : s.history.length = 50
    · rw [if_pos h50eq] at e1
      refine ⟨?_, ?_, ?_⟩
      · rw [g1, e4, e1,
          ← List.drop_append_of_le_length
            (by simp only [List.length_append, List.length_cons, List.length_nil]; omega),
          List.drop_drop, List.append_assoc, List.singleton_append]
        congr 1
        simp only [List.length_cons]
        omega
      · rw [g2, e4]
        simp only [List.length_cons]
        push_cast
        omega
      · rw [g3, e3, List.getLastD_cons]
    · rw [if_neg h50eq, List.drop_zero] at e1
      refine ⟨?_, ?_, ?_⟩
      · rw [g1, e4, e1, List.append_assoc, List.singleton_append]
        congr 1
        simp only [List.length_cons]
        omega
      · rw [g2, e4]
        simp only [List.length_cons]
        push_cast
        omega
      · rw [g3, e3, List.getLastD_cons]

lemma commitRegions_sync (s : AppState) (r : RegionsByImage) (p : ℕ)
    (hp : s.historyIndex = (p : ℤ)) (hlt : p < s.history.length)
    (h50 : s.history.length ≤ 50) :
    (commitRegions s r).history
        = (s.history.take (p + 1) ++ [r]).drop (if p = 49 then 1 else 0) ∧
    (commitRegions s r).historyIndex = (min (p + 2) 50 : ℤ) - 1 ∧
    (commitRegions s r).regions = r ∧
    (commitRegions s r).history.length = min (p + 2) 50 := by
  have htn : (s.historyIndex + 1).toNat = p + 1 := by omega
  have hlen : (s.history.take (p + 1)).length = p + 1 := by
    rw [List.length_take]; omega
  unfold commitRegions saveToHistory
  simp only [htn, List.length_append, List.length_cons, List.length_nil, hlen]
  by_cases hc : p = 49
  · rw [if_pos (by omega), if_pos hc]
    refine ⟨rfl, ?_, trivial, ?_⟩
    · rw [List.length_drop]
      simp only [List.length_append, List.length_cons, List.length_nil, hlen]
      push_cast
      omega
    · rw [List.length_drop]
      simp only [List.length_append, List.length_cons, List.length_nil, hlen]
      omega
  · rw [if_neg (by omega), if_neg hc]
    refine ⟨(List.drop_zero _).symm, ?_, trivial, ?_⟩
    · simp only [List.length_append, List.length_cons, List.length_nil, hlen]
      push_cast
      omega
    · simp only [List.length_append, List.length_cons, List.length_nil, hlen]
      omega

/-- **C2 (amended)** — From any state whose current region map is the
history snapshot at the pointer (every state directly after a committed
mutation, undo or redo is such a state), N consecutive committed mutations
followed by N `handleUndo` calls restore the pre-mutation map exactly, and
N subsequent `handleRedo` calls then restore the final map, provided
N ≤ 49 (at N = 50 the capacity eviction discards the pre-mutation
snapshot); undo at pointer 0 is a no-op, and undo never modifies the
history list. -/
theorem history_undo_redo_roundtrip (s : AppState) (rs : List RegionsByImage) (p : ℕ)
    (hp : s.historyIndex = (p : ℤ)) (hlt : p < s.history.length)
    (hcap : s.history.length ≤ 50)
    (hsync : s.regions = s.history.getD p [])
    (hN : rs.length ≤ 49) :
    (iterateOp handleUndo rs.length (commitList s rs)).regions = s.regions ∧
    (iterateOp handleRedo rs.length
        (iterateOp handleUndo rs.length (commitList s rs))).regions
      = (commitList s rs).regions ∧
    (∀ s2 : AppState, s2.historyIndex = 0 → handleUndo s2 = s2) ∧
    (∀ s2 : AppState, (handleUndo s2).history = s2.history) := by
  have hnoop : ∀ s2 : AppState, s2.historyIndex = 0 → handleUndo s2 = s2 := by
    intro s2 h2
    rw [handleUndo, if_neg (by omega)]
  have hkeep : ∀ s2 : AppState, (handleUndo s2).history = s2.history := by
    intro s2
    rw [handleUndo]
    split <;> rfl
  rcases rs with _ | ⟨r, rs2⟩
  · exact ⟨rfl, rfl, hnoop, hkeep⟩
  obtain ⟨e1, e2, e3, e4⟩ := commitRegions_sync s r p hp hlt hcap
  have hE : (if p = 49 then 1 else 0) = p + 2 - min (p + 2) 50 := by
    by_cases h : p = 49
    · rw [if_pos h]; omega
    · rw [if_neg h]; omega
  rw [hE] at e1
  have hPreLen : (s.history.take (p + 1)).length = p + 1 := by
    rw [List.length_take]; omega
  have hidx2 : (commitRegions s r).historyIndex
      = ((commitRegions s r).history.length : ℤ) - 1 := by
    rw [e2, e4]; push_cast; omega
  have h12 : 1 ≤ (commitRegions s r).history.length := by rw [e4]; omega
  have h502 : (commitRegions s r).history.length ≤ 50 := by rw [e4]; omega
  obtain ⟨g1, g2, g3⟩ := commitList_top rs2 (commitRegions s r) hidx2 h12 h502
  have hcl : commitList s (r :: rs2) = commitList (commitRegions s r) rs2 := by
    simp [commitList]
  have hN2 : rs2.length ≤ 48 := by
    simp only [List.length_cons] at hN
    omega
  have hFidx : ((rs2.length + 1 : ℕ) : ℤ)
      ≤ (commitList (commitRegions s r) rs2).historyIndex := by
    rw [g2, e4]; push_cast; omega
  obtain ⟨u1, u2, u3⟩ :=
    iterate_undo_char (rs2.length + 1) (commitList (commitRegions s r) rs2) hFidx
  have hDle : p + 2 - min (p + 2) 50 ≤ (s.history.take (p + 1) ++ [r]).length := by
    rw [List.length_append, hPreLen]
    simp only [List.length_cons, List.length_nil]
    omega
  have hundo : (iterateOp handleUndo (r :: rs2).length (commitList s (r :: rs2))).regions
      = s.regions := by
    simp only [List.length_cons]
    rw [hcl, u3, if_neg (Nat.succ_ne_zero rs2.length), g2, g1, e4, e1,
      listGetD_drop, ← List.drop_append_of_le_length hDle, listGetD_drop,
      List.append_assoc, List.singleton_append]
    have hpos : p + 2 - min (p + 2) 50
        + (min (p + 2) 50 + rs2.length - min (min (p + 2) 50 + rs2.length) 50
          + ((((min (p + 2) 50 : ℕ) : ℤ) + ((rs2.length : ℕ) : ℤ)) ⊓ 50 - 1
              - ((rs2.length + 1 : ℕ) : ℤ)).toNat)
        = p := by
      push_cast
      omega
    rw [hpos, List.getD_append _ _ _ _ (by rw [hPreLen]; omega),
      listGetD_take s.history (p + 1) p [] (by omega)]
    exact hsync.symm
  have hFlen : (commitList (commitRegions s r) rs2).history.length
      = min ((commitRegions s r).history.length + rs2.length) 50 := by
    rw [g1, List.length_drop, List.length_append]
    omega
  have hUidx : (iterateOp handleUndo (rs2.length + 1)
        (commitList (commitRegions s r) rs2)).historyIndex + ((rs2.length + 1 : ℕ) : ℤ)
      ≤ ((iterateOp handleUndo (rs2.length + 1)
          (commitList (commitRegions s r) rs2)).history.length : ℤ) - 1 := by
    rw [u1, u2, g2, e4, hFlen, e4]
    push_cast
    omega
  obtain ⟨r1, r2, r3⟩ := iterate_redo_char (rs2.length + 1)
    (iterateOp handleUndo (rs2.length + 1) (commitList (commitRegions s r) rs2)) hUidx
  have hredo : (iterateOp handleRedo (r :: rs2).length
        (iterateOp handleUndo (r :: rs2).length (commitList s (r :: rs2)))).regions
      = (commitList s (r :: rs2)).regions := by
    simp only [List.length_cons]
    rw [hcl, r3, if_neg (Nat.succ_ne_zero rs2.length), u1, u2, g3, e3, g2, g1, e4, e1,
      listGetD_drop, ← List.drop_append_of_le_length hDle, listGetD_drop,
      List.append_assoc, List.singleton_append]
    have hpos2 : p + 2 - min (p + 2) 50
        + (min (p + 2) 50 + rs2.length - min (min (p + 2) 50 + rs2.length) 50
          + (((((min (p + 2) 50 : ℕ) : ℤ) + ((rs2.length : ℕ) : ℤ)) ⊓ 50 - 1
              - ((rs2.length + 1 : ℕ) : ℤ) + ((rs2.length + 1 : ℕ) : ℤ)).toNat))
        = p + 1 + rs2.length := by
      push_cast
      omega
    rw [hpos2, List.getD_append_right _ _ _ _ (by rw [hPreLen]; omega)]
    have hsub : p + 1 + rs2.length - (s.history.take (p + 1)).length = rs2.length := by
      rw [hPreLen]; omega
    rw [hsub, getD_length_cons]
  exact ⟨hundo, hredo, hnoop, hkeep⟩

/-- The initial values of the App component state hooks: no images, empty
region map, empty history with pointer −1, select mode, default label
"object", no gesture in progress. -/
def initialAppState : AppState :=
  { images := [], currentImageIndex := 0, regions := [], selectedRegions := [],
    lastSelectedIndex := none, history := [], historyIndex := -1,
    annotationMode := "select", defaultLabel := "object", isDrawing := false,
    drawStart := none, drawCurrent := none, isDragging := false,
    dragRegionId := none, dragOffset := (0, 0), isResizing := false,
    resizeRegionId := none, resizeHandle := none, resizeStart := none }

/-- A state with one committed snapshot in history, in sync with the pointer. -/
def undoWitnessState : AppState :=
  { initialAppState with history := [[]], historyIndex := 0 }

/-- Witness for C2: one committed mutation from a one-snapshot in-sync state,
one undo restores the empty map, one redo restores the committed map. -/
theorem history_undo_redo_roundtrip_witness :
    (undoWitnessState.historyIndex = ((0 : ℕ) : ℤ) ∧
      0 < undoWitnessState.history.length ∧
      undoWitnessState.history.length ≤ 50 ∧
      undoWitnessState.regions = undoWitnessState.history.getD 0 [] ∧
      ([[("img1", [Region.mk 1 "car" 1 "auto" 0 0 10 10])]] : List RegionsByImage).length ≤ 49) ∧
    (iterateOp handleUndo 1 (commitList undoWitnessState
        [[("img1", [Region.mk 1 "car" 1 "auto" 0 0 10 10])]])).regions
      = undoWitnessState.regions ∧
    (iterateOp handleRedo 1 (iterateOp handleUndo 1 (commitList undoWitnessState
        [[("img1", [Region.mk 1 "car" 1 "auto" 0 0 10 10])]]))).regions
      = (commitList undoWitnessState
        [[("img1", [Region.mk 1 "car" 1 "auto" 0 0 10 10])]]).regions := by
  refine ⟨⟨rfl, by norm_num [undoWitnessState, initialAppState], by norm_num [undoWitnessState, initialAppState], rfl, by norm_num⟩, ?_, ?_⟩
  · exact (history_undo_redo_roundtrip undoWitnessState
      [[("img1", [Region.mk 1 "car" 1 "auto" 0 0 10 10])]] 0 rfl
      (by norm_num [undoWitnessState, initialAppState])
      (by norm_num [undoWitnessState, initialAppState]) rfl (by norm_num)).1
  · exact (history_undo_redo_roundtrip undoWitnessState
      [[("img1", [Region.mk 1 "car" 1 "auto" 0 0 10 10])]] 0 rfl
      (by norm_num [undoWitnessState, initialAppState])
      (by norm_num [undoWitnessState, initialAppState]) rfl (by norm_num)).2.1

/-- **C2 counterexample** — from the initial App state (empty history,
pointer −1), one committed mutation followed by one undo does NOT restore
the pre-mutation region map: the pre-mutation state was never snapshotted,
so the undo is a no-op and the mutated map survives.  The claim is false
for runs started "from any state". -/
theorem undo_after_single_commit_counterexample :
    (handleUndo (commitRegions initialAppState
        [("img1", [Region.mk 1 "car" 1 "auto" 0 0 10 10])])).regions
      = [("img1", [Region.mk 1 "car" 1 "auto" 0 0 10 10])] ∧
    initialAppState.regions = [] ∧
    ([("img1", [Region.mk 1 "car" 1 "auto" 0 0 10 10])] : RegionsByImage) ≠ [] := by
  exact ⟨rfl, rfl, by simp⟩

/-- JS truthiness of a nullable numeric id (`null`, `undefined`, `0` falsy). -/
def jsTruthyId : Option ℤ → Bool
  | none => false
  | some i => i != 0

/-- JS truthiness of a nullable string (`null`, `undefined`, `""` falsy). -/
def jsTruthyStr : Option String → Bool
  | none => false
  | some str => str != ""

/-- `handleCanvasMouseMove(e)` at already-dezoomed canvas coordinates:
updates the draw preview, or translates the dragged box (clamped to image
bounds, size unchanged), or resizes via the active handle (minimum size 20,
clamped to image bounds).  Never touches the history. -/
def handleCanvasMouseMove (s : AppState) (canvasCoords : ℚ × ℚ) : AppState :=
  match currentImage s with
  | none => s
  | some img =>
    if s.isDrawing then { s with drawCurrent := some canvasCoords }
    else if s.isDragging ∧ jsTruthyId s.dragRegionId then
      match s.dragRegionId with
      | some dragId =>
        let imageCoords := canvasToImageCoords (canvasCoords.1 - s.dragOffset.1)
          (canvasCoords.2 - s.dragOffset.2) img.width img.height
        { s with regions := rbiSet s.regions img.id ((rbiGet s.regions img.id).map (fun r => if r.id = dragId then { r with x := clamp imageCoords.1 0 (img.width - r.w), y := clamp imageCoords.2 0 (img.height - r.h) } else r)) }
      | none => s
    else if s.isResizing ∧ jsTruthyId s.resizeRegionId ∧ jsTruthyStr s.resizeHandle
        ∧ s.resizeStart ≠ none then
      match s.resizeRegionId, s.resizeHandle, s.resizeStart with
      | some rid, some handle, some rStart =>
        match (rbiGet s.regions img.id).find? (fun r => decide (r.id = rid)) with
        | none => s
        | some region =>
          let imageCoords := canvasToImageCoords canvasCoords.1 canvasCoords.2
            img.width img.height
          let newX := if handle.contains 'w' then clamp (region.x + (imageCoords.1 - rStart.1)) 0 (region.x + region.w - 20) else region.x
          let newW1 := if handle.contains 'w' then region.w - (newX - region.x) else region.w
          let newW := if handle.contains 'e' then clamp (imageCoords.1 - region.x) 20 (img.width - region.x) else newW1
          let newY := if handle.contains 'n' then clamp (region.y + (imageCoords.2 - rStart.2)) 0 (region.y + region.h - 20) else region.y
          let newH1 := if handle.contains 'n' then region.h - (newY - region.y) else region.h
          let newH := if handle.contains 's' then clamp (imageCoords.2 - region.y) 20 (img.height - region.y) else newH1
          { s with regions := rbiSet s.regions img.id ((rbiGet s.regions img.id).map (fun r => if r.id = rid then { r with x := newX, y := newY, w := newW, h := newH } else r)), resizeStart := some imageCoords }
      | _, _, _ => s
    else s

/-- First block of `handleCanvasMouseUp`:
`if (isDrawing && drawStart && drawCurrent && currentImage) { ... }` —
converts the preview into a new manual Region only when both final sides
exceed 10 image pixels, commits one snapshot and selects the new region,
then clears the drawing state. -/
def mouseUpDrawPhase (s : AppState) (now : ℤ) : AppState :=
  if s.isDrawing then
    match s.drawStart, s.drawCurrent, currentImage s with
    | some p1, some p2, some img =>
      let startImg := canvasToImageCoords p1.1 p1.2 img.width img.height
      let endImg := canvasToImageCoords p2.1 p2.2 img.width img.height
      let x := min startImg.1 endImg.1
      let y := min startImg.2 endImg.2
      let w := |endImg.1 - startImg.1|
      let h := |endImg.2 - startImg.2|
      let s2 :=
        if 10 < w ∧ 10 < h then
          let newRegion : Region := ⟨now, s.defaultLabel, 1, "manual", clamp x 0 (img.width - w), clamp y 0 (img.height - h), min w img.width, min h img.height⟩
          { commitRegions s (rbiSet s.regions img.id (rbiGet s.regions img.id ++ [newRegion])) with selectedRegions := [now] }
        else s
      { s2 with isDrawing := false, drawStart := none, drawCurrent := none }
    | _, _, _ => s
  else s

/-- Second block of `handleCanvasMouseUp`:
`if (isDragging) { saveToHistory(regions); ... }` — commits the single
drag-gesture snapshot and clears the dragging state. -/
def mouseUpDragPhase (s : AppState) : AppState :=
  if s.isDragging then
    { saveToHistory s s.regions with isDragging := false, dragRegionId := none, dragOffset := ((0 : ℚ), (0 : ℚ)) }
  else s

/-- Third block of `handleCanvasMouseUp`:
`if (isResizing) { saveToHistory(regions); ... }` — commits the single
resize-gesture snapshot and clears the resizing state. -/
def mouseUpResizePhase (s : AppState) : AppState :=
  if s.isResizing then
    { saveToHistory s s.regions with isResizing := false, resizeRegionId := none, resizeHandle := none, resizeStart := none }
  else s

/-- `handleCanvasMouseUp()`: the three blocks of the source in order.
`now` is `Date.now()`, the id given to a newly created region. -/
def handleCanvasMouseUp (s : AppState) (now : ℤ) : AppState :=
  mouseUpResizePhase (mouseUpDragPhase (mouseUpDrawPhase s now))

lemma mouseMove_preserves (s : AppState) (c : ℚ × ℚ) :
    (handleCanvasMouseMove s c).history = s.history ∧
    (handleCanvasMouseMove s c).historyIndex = s.historyIndex ∧
    (handleCanvasMouseMove s c).isDrawing = s.isDrawing ∧
    (handleCanvasMouseMove s c).isDragging = s.isDragging ∧
    (handleCanvasMouseMove s c).isResizing = s.isResizing := by
  unfold handleCanvasMouseMove
  repeat' split
  all_goals simp

lemma foldl_mouseMove_preserves : ∀ (moves : List (ℚ × ℚ)) (s : AppState),
    (moves.foldl handleCanvasMouseMove s).history = s.history ∧
    (moves.foldl handleCanvasMouseMove s).historyIndex = s.historyIndex ∧
    (moves.foldl handleCanvasMouseMove s).isDrawing = s.isDrawing ∧
    (moves.foldl handleCanvasMouseMove s).isDragging = s.isDragging ∧
    (moves.foldl handleCanvasMouseMove s).isResizing = s.isResizing := by
  intro moves
  induction moves with
  | nil => intro s; exact ⟨rfl, rfl, rfl, rfl, rfl⟩
  | cons c moves ih =>
    intro s
    obtain ⟨i1, i2, i3, i4, i5⟩ := ih (handleCanvasMouseMove s c)
    obtain ⟨m1, m2, m3, m4, m5⟩ := mouseMove_preserves s c
    rw [List.foldl_cons]
    exact ⟨i1.trans m1, i2.trans m2, i3.trans m3, i4.trans m4, i5.trans m5⟩

lemma saveToHistory_top (s : AppState) (r : RegionsByImage)
    (hidx : s.historyIndex = (s.history.length : ℤ) - 1)
    (hcap : s.history.length < 50) :
    (saveToHistory s r).history = s.history ++ [r] ∧
    (saveToHistory s r).historyIndex = (s.history.length : ℤ) ∧
    (saveToHistory s r).regions = s.regions := by
  have htn : (s.historyIndex + 1).toNat = s.history.length := by omega
  unfold saveToHistory
  simp only [htn, List.take_length]
  rw [if_neg (by rw [List.length_append]; simp only [List.length_cons, List.length_nil]; omega)]
  refine ⟨by simp, ?_, by simp⟩
  rw [List.length_append]
  simp only [List.length_cons, List.length_nil]
  push_cast
  omega

/-- **C5** — during a drag or resize gesture no pointer-move update touches
the history, and the terminating pointer-up commits exactly one snapshot
for the whole gesture: the stack becomes the old stack plus the single
snapshot of the gesture's final region map, growing by exactly one entry
no matter how many intermediate moves occurred. -/
theorem gesture_commits_single_snapshot (s : AppState) (moves : List (ℚ × ℚ)) (now : ℤ)
    (hsync : s.historyIndex = (s.history.length : ℤ) - 1)
    (hcap : s.history.length < 50)
    (hdraw : s.isDrawing = false)
    (hgesture : (s.isDragging = true ∧ s.isResizing = false)
      ∨ (s.isDragging = false ∧ s.isResizing = true)) :
    (moves.foldl handleCanvasMouseMove s).history = s.history ∧
    (moves.foldl handleCanvasMouseMove s).historyIndex = s.historyIndex ∧
    (handleCanvasMouseUp (moves.foldl handleCanvasMouseMove s) now).history
      = s.history ++ [(moves.foldl handleCanvasMouseMove s).regions] ∧
    (handleCanvasMouseUp (moves.foldl handleCanvasMouseMove s) now).history.length
      = s.history.length + 1 := by
  obtain ⟨ph, pi, pd, pg, pr⟩ := foldl_mouseMove_preserves moves s
  have hidxF : (moves.foldl handleCanvasMouseMove s).historyIndex
      = (((moves.foldl handleCanvasMouseMove s).history.length : ℤ) - 1) := by
    rw [pi, ph, hsync]
  have hcapF : (moves.foldl handleCanvasMouseMove s).history.length < 50 := by
    rw [ph]; exact hcap
  obtain ⟨sh1, sh2, sh3⟩ := saveToHistory_top (moves.foldl handleCanvasMouseMove s)
    (moves.foldl handleCanvasMouseMove s).regions hidxF hcapF
  have hdrawP : mouseUpDrawPhase (moves.foldl handleCanvasMouseMove s) now
      = moves.foldl handleCanvasMouseMove s := by
    rw [mouseUpDrawPhase, if_neg (by rw [pd, hdraw]; simp)]
  have hup : (handleCanvasMouseUp (moves.foldl handleCanvasMouseMove s) now).history
      = s.history ++ [(moves.foldl handleCanvasMouseMove s).regions] := by
    rcases hgesture with ⟨hdrag, hres⟩ | ⟨hdrag, hres⟩
    · rw [handleCanvasMouseUp, hdrawP, mouseUpDragPhase, if_pos (by rw [pg, hdrag]),
        mouseUpResizePhase, if_neg (by simp [saveToHistory, pr, hres])]
      rw [show ({ saveToHistory (moves.foldl handleCanvasMouseMove s) (moves.foldl handleCanvasMouseMove s).regions with isDragging := false, dragRegionId := none, dragOffset := ((0 : ℚ), (0 : ℚ)) } : AppState).history = (saveToHistory (moves.foldl handleCanvasMouseMove s) (moves.foldl handleCanvasMouseMove s).regions).history from rfl]
      rw [sh1, ph]
    · rw [handleCanvasMouseUp, hdrawP, mouseUpDragPhase, if_neg (by rw [pg, hdrag]; simp),
        mouseUpResizePhase, if_pos (by rw [pr]; exact hres)]
      rw [show ({ saveToHistory (moves.foldl handleCanvasMouseMove s) (moves.foldl handleCanvasMouseMove s).regions with isResizing := false, resizeRegionId := none, resizeHandle := none, resizeStart := none } : AppState).history = (saveToHistory (moves.foldl handleCanvasMouseMove s) (moves.foldl handleCanvasMouseMove s).regions).history from rfl]
      rw [sh1, ph]
  refine ⟨ph, pi, hup, ?_⟩
  rw [hup, List.length_append]
  simp only [List.length_cons, List.length_nil]

lemma lookup_map_replace (k : String) (v : List Region) : ∀ (m : RegionsByImage),
    (m.lookup k).isSome →
    (m.map (fun p => if p.1 = k then (k, v) else p)).lookup k = some v := by
  intro m
  induction m with
  | nil => intro h; simp [List.lookup] at h
  | cons a tl ih =>
    obtain ⟨a1, a2⟩ := a
    intro h
    by_cases hk : a1 = k
    · subst hk
      simp [List.lookup_cons]
    · have hbeq : (k == a1) = false := by
        simp only [beq_eq_false_iff_ne, ne_eq]
        exact fun he => hk he.symm
      simp only [List.map_cons, if_neg hk] at *
      simp only [List.lookup_cons, hbeq] at h ⊢
      exact ih h

lemma lookup_append_absent (k : String) (v : List Region) : ∀ (m : RegionsByImage),
    m.lookup k = none → (m ++ [(k, v)]).lookup k = some v := by
  intro m
  induction m with
  | nil => intro _; simp [List.lookup_cons]
  | cons a tl ih =>
    obtain ⟨a1, a2⟩ := a
    intro h
    cases hbeq : (k == a1) with
    | false =>
      simp only [List.cons_append, List.lookup_cons, hbeq] at h ⊢
      exact ih h
    | true =>
      simp only [List.lookup_cons, hbeq] at h
      exact absurd h (by simp)

lemma rbiGet_rbiSet (m : RegionsByImage) (k : String) (v : List Region) :
    rbiGet (rbiSet m k v) k = v := by
  unfold rbiGet rbiSet
  by_cases h : (m.lookup k).isSome
  · rw [if_pos h, lookup_map_replace k v m h]
    rfl
  · rw [if_neg h, lookup_append_absent k v m (Option.not_isSome_iff_eq_none.mp h)]
    rfl

lemma mouseUpDrawPhase_flags (s : AppState) (now : ℤ) :
    (mouseUpDrawPhase s now).isDragging = s.isDragging ∧
    (mouseUpDrawPhase s now).isResizing = s.isResizing := by
  unfold mouseUpDrawPhase
  repeat' split
  all_goals try dsimp only
  all_goals try split_ifs
  all_goals simp [commitRegions, saveToHistory]

lemma mouseUp_eq_drawPhase (s : AppState) (now : ℤ)
    (hdrag : s.isDragging = false) (hres : s.isResizing = false) :
    handleCanvasMouseUp s now = mouseUpDrawPhase s now := by
  obtain ⟨f1, f2⟩ := mouseUpDrawPhase_flags s now
  rw [handleCanvasMouseUp, mouseUpDragPhase, if_neg (by rw [f1, hdrag]; simp),
    mouseUpResizePhase, if_neg (by rw [f2, hres]; simp)]

theorem draw_min_size_rule (s : AppState) (now : ℤ) (p1 p2 : ℚ × ℚ) (img : Image)
    (hdraw : s.isDrawing = true) (hs : s.drawStart = some p1) (hc : s.drawCurrent = some p2)
    (hci : currentImage s = some img)
    (hdrag : s.isDragging = false) (hres : s.isResizing = false) :
    (¬(10 < |(canvasToImageCoords p2.1 p2.2 img.width img.height).1
          - (canvasToImageCoords p1.1 p1.2 img.width img.height).1|
        ∧ 10 < |(canvasToImageCoords p2.1 p2.2 img.width img.height).2
          - (canvasToImageCoords p1.1 p1.2 img.width img.height).2|) →
      (handleCanvasMouseUp s now).regions = s.regions ∧
      (handleCanvasMouseUp s now).history = s.history) ∧
    ((10 < |(canvasToImageCoords p2.1 p2.2 img.width img.height).1
          - (canvasToImageCoords p1.1 p1.2 img.width img.height).1|
        ∧ 10 < |(canvasToImageCoords p2.1 p2.2 img.width img.height).2
          - (canvasToImageCoords p1.1 p1.2 img.width img.height).2|) →
      (rbiGet (handleCanvasMouseUp s now).regions img.id).length
        = (rbiGet s.regions img.id).length + 1 ∧
      (rbiGet (handleCanvasMouseUp s now).regions img.id).dropLast
        = rbiGet s.regions img.id ∧
      ((rbiGet (handleCanvasMouseUp s now).regions img.id).getLast?).map
          (fun r => (r.id, r.label, r.confidence, r.status))
        = some (now, s.defaultLabel, (1 : ℚ), "manual")) := by
  rw [mouseUp_eq_drawPhase s now hdrag hres]
  rw [mouseUpDrawPhase, if_pos hdraw, hs, hc, hci]
  constructor
  · intro hn
    simp only []
    rw [if_neg hn]
    exact ⟨rfl, rfl⟩
  · intro hy
    simp only []
    rw [if_pos hy]
    simp only [commitRegions, saveToHistory]
    rw [rbiGet_rbiSet]
    refine ⟨?_, List.dropLast_concat, ?_⟩
    · rw [List.length_append]
      simp
    · rw [List.getLast?_concat]
      rfl

/-- A state in the middle of a drag gesture on an 800 × 500 image. -/
def dragWitnessState : AppState :=
  { initialAppState with images := [⟨"imgA", "a.png", 800, 500⟩], regions := [("imgA", [⟨7, "car", 1, "auto", 100, 100, 50, 50⟩])], isDragging := true, dragRegionId := some 7 }

/-- Witness for C5: a drag gesture with one intermediate move grows the
history by exactly one entry. -/
theorem gesture_commits_single_snapshot_witness :
    (dragWitnessState.historyIndex = (dragWitnessState.history.length : ℤ) - 1 ∧
      dragWitnessState.history.length < 50 ∧
      dragWitnessState.isDrawing = false ∧
      dragWitnessState.isDragging = true ∧ dragWitnessState.isResizing = false) ∧
    ([((200 : ℚ), (200 : ℚ))].foldl handleCanvasMouseMove dragWitnessState).history
      = dragWitnessState.history ∧
    (handleCanvasMouseUp ([((200 : ℚ), (200 : ℚ))].foldl handleCanvasMouseMove dragWitnessState) 99).history.length
      = dragWitnessState.history.length + 1 :=
  ⟨⟨rfl, by norm_num [dragWitnessState, initialAppState], rfl, rfl, rfl⟩,
    (gesture_commits_single_snapshot dragWitnessState [((200 : ℚ), (200 : ℚ))] 99 rfl
      (by norm_num [dragWitnessState, initialAppState]) rfl (Or.inl ⟨rfl, rfl⟩)).1,
    (gesture_commits_single_snapshot dragWitnessState [((200 : ℚ), (200 : ℚ))] 99 rfl
      (by norm_num [dragWitnessState, initialAppState]) rfl (Or.inl ⟨rfl, rfl⟩)).2.2.2⟩

/-- A draw gesture anchored at canvas point (100, 100) on an 800 × 500
image (the letterbox transform is the identity there). -/
def drawWitnessBase : AppState :=
  { initialAppState with images := [⟨"imgA", "a.png", 800, 500⟩], isDrawing := true, drawStart := some ((100 : ℚ), (100 : ℚ)) }

/-- Witness for C7: an 8 × 8 drag creates no region; a 12 × 12 drag appends
exactly one region with the default label, confidence 1 and status manual. -/
theorem draw_min_size_rule_witness :
    (handleCanvasMouseUp { drawWitnessBase with drawCurrent := some ((108 : ℚ), (108 : ℚ)) } 77).regions
      = ({ drawWitnessBase with drawCurrent := some ((108 : ℚ), (108 : ℚ)) } : AppState).regions ∧
    (rbiGet (handleCanvasMouseUp { drawWitnessBase with drawCurrent := some ((112 : ℚ), (112 : ℚ)) } 77).regions "imgA").length
      = (rbiGet ({ drawWitnessBase with drawCurrent := some ((112 : ℚ), (112 : ℚ)) } : AppState).regions "imgA").length + 1 ∧
    ((rbiGet (handleCanvasMouseUp { drawWitnessBase with drawCurrent := some ((112 : ℚ), (112 : ℚ)) } 77).regions "imgA").getLast?).map
        (fun r => (r.id, r.label, r.confidence, r.status))
      = some ((77 : ℤ), "object", (1 : ℚ), "manual") :=
  ⟨((draw_min_size_rule { drawWitnessBase with drawCurrent := some ((108 : ℚ), (108 : ℚ)) } 77
      ((100 : ℚ), (100 : ℚ)) ((108 : ℚ), (108 : ℚ)) ⟨"imgA", "a.png", 800, 500⟩
      rfl rfl rfl rfl rfl rfl).1
      (by norm_num [canvasToImageCoords, getImageTransform, CANVAS_WIDTH, CANVAS_HEIGHT])).1,
    ((draw_min_size_rule { drawWitnessBase with drawCurrent := some ((112 : ℚ), (112 : ℚ)) } 77
      ((100 : ℚ), (100 : ℚ)) ((112 : ℚ), (112 : ℚ)) ⟨"imgA", "a.png", 800, 500⟩
      rfl rfl rfl rfl rfl rfl).2
      (by norm_num [canvasToImageCoords, getImageTransform, CANVAS_WIDTH, CANVAS_HEIGHT])).1,
    ((draw_min_size_rule { drawWitnessBase with drawCurrent := some ((112 : ℚ), (112 : ℚ)) } 77
      ((100 : ℚ), (100 : ℚ)) ((112 : ℚ), (112 : ℚ)) ⟨"imgA", "a.png", 800, 500⟩
      rfl rfl rfl rfl rfl rfl).2
      (by norm_num [canvasToImageCoords, getImageTransform, CANVAS_WIDTH, CANVAS_HEIGHT])).2.2⟩

/-- `[...new Set(xs)]`: deduplicate keeping the first occurrence of each
element, in order (JS `Set` iteration order is insertion order). -/
def dedupFirst (seen : List ℤ) : List ℤ → List ℤ
  | [] => []
  | a :: l => if a ∈ seen then dedupFirst seen l else a :: dedupFirst (a :: seen) l

/-- `handleSelectRegion(id, e, globalIdx)`: draw mode ignores clicks; a
shift click with a live anchor unions the inclusive slice of
`allRegionIds` between anchor and clicked index into the selection without
moving the anchor; a ctrl/meta click toggles the id and moves the anchor;
a plain click selects exactly the id and moves the anchor. -/
def handleSelectRegion (s : AppState) (id : ℤ) (shiftKey ctrlKey : Bool)
    (globalIdx : Option ℕ) : AppState :=
  if s.annotationMode = "draw" then s
  else if shiftKey ∧ s.lastSelectedIndex ≠ none ∧ globalIdx ≠ none then
    match s.lastSelectedIndex, globalIdx with
    | some last, some gi =>
      let start := min last gi
      let stop := max last gi
      let rangeIds := ((allRegionIds s).drop start).take (stop + 1 - start)
      { s with selectedRegions := dedupFirst [] (s.selectedRegions ++ rangeIds) }
    | _, _ => s
  else if ctrlKey then
    { s with selectedRegions := if id ∈ s.selectedRegions then s.selectedRegions.filter (fun x => decide (x ≠ id)) else s.selectedRegions ++ [id], lastSelectedIndex := globalIdx }
  else
    { s with selectedRegions := [id], lastSelectedIndex := globalIdx }

/-- Five one-box regions r0..r4 on one image, for the range-selection
scenario. -/
def rangeScenarioState : AppState :=
  { initialAppState with images := [⟨"imgA", "a.png", 800, 500⟩], regions := [("imgA", [⟨0, "car", 1, "auto", 0, 0, 30, 30⟩, ⟨1, "car", 1, "auto", 40, 0, 30, 30⟩, ⟨2, "car", 1, "auto", 80, 0, 30, 30⟩, ⟨3, "car", 1, "auto", 120, 0, 30, 30⟩, ⟨4, "car", 1, "auto", 160, 0, 30, 30⟩])] }

/-- **C8** — a range-modifier click selects the inclusive contiguous slice
of the current image's ordered region ids between the anchor and the
clicked index, unioned into the existing selection keeping first-seen
order, and does not move the anchor; a plain click selects exactly the
clicked id and moves the anchor; in particular on regions r0..r4,
plain-clicking r1 then range-clicking r3 selects exactly r1, r2, r3. -/
theorem range_selection_rule :
    (∀ (s : AppState) (id : ℤ) (last gi : ℕ),
      s.annotationMode ≠ "draw" → s.lastSelectedIndex = some last →
      (handleSelectRegion s id true false (some gi)).selectedRegions
        = dedupFirst [] (s.selectedRegions
            ++ ((allRegionIds s).drop (min last gi)).take (max last gi + 1 - min last gi)) ∧
      (handleSelectRegion s id true false (some gi)).lastSelectedIndex
        = s.lastSelectedIndex) ∧
    (∀ (s : AppState) (id : ℤ) (gi : Option ℕ),
      s.annotationMode ≠ "draw" →
      (handleSelectRegion s id false false gi).selectedRegions = [id] ∧
      (handleSelectRegion s id false false gi).lastSelectedIndex = gi) ∧
    (handleSelectRegion (handleSelectRegion rangeScenarioState 1 false false (some 1))
        3 true false (some 3)).selectedRegions = [1, 2, 3] := by
  refine ⟨?_, ?_, ?_⟩
  · intro s id last gi hmode hlast
    simp [handleSelectRegion, hmode, hlast]
  · intro s id gi hmode
    simp [handleSelectRegion, hmode]
  · rfl

/-- Witness for C8: on the five-region scenario, a plain click on r1
selects exactly r1 and sets the anchor, and the following range click on
r3 unions the slice between anchor 1 and index 3 into the selection. -/
theorem range_selection_rule_witness :
    (rangeScenarioState.annotationMode ≠ "draw" ∧
      (handleSelectRegion rangeScenarioState 1 false false (some 1)).selectedRegions = [1] ∧
      (handleSelectRegion rangeScenarioState 1 false false (some 1)).lastSelectedIndex = some 1) ∧
    ((handleSelectRegion rangeScenarioState 1 false false (some 1)).annotationMode ≠ "draw" ∧
      (handleSelectRegion rangeScenarioState 1 false false (some 1)).lastSelectedIndex = some 1 ∧
      (handleSelectRegion (handleSelectRegion rangeScenarioState 1 false false (some 1))
          3 true false (some 3)).selectedRegions
        = dedupFirst [] ((handleSelectRegion rangeScenarioState 1 false false (some 1)).selectedRegions
            ++ ((allRegionIds (handleSelectRegion rangeScenarioState 1 false false (some 1))).drop
                (min 1 3)).take (max 1 3 + 1 - min 1 3))) :=
  ⟨⟨by decide,
    (range_selection_rule.2.1 rangeScenarioState 1 (some 1) (by decide)).1,
    (range_selection_rule.2.1 rangeScenarioState 1 (some 1) (by decide)).2⟩,
   by decide,
   rfl,
   (range_selection_rule.1 (handleSelectRegion rangeScenarioState 1 false false (some 1))
     3 1 3 (by decide) rfl).1⟩

/-- `updateRegions(fn)`: no-op without a current image, else replace the
current image's list with `fn` applied to it and commit one snapshot. -/
def updateRegions (s : AppState) (f : List Region → List Region) : AppState :=
  match currentImage s with
  | none => s
  | some img => commitRegions s (rbiSet s.regions img.id (f (rbiGet s.regions img.id)))

/-- `handleApprove`: mark every selected region approved, commit one
snapshot, then clear the selection. -/
def handleApprove (s : AppState) : AppState :=
  if s.selectedRegions ≠ [] then
    { updateRegions s (fun rs => rs.map (fun r => if r.id ∈ s.selectedRegions then { r with status := "approved" } else r)) with selectedRegions := [] }
  else s

/-- `handleFlag`: mark every selected region flagged and commit one
snapshot; the selection is left as it is. -/
def handleFlag (s : AppState) : AppState :=
  if s.selectedRegions ≠ [] then
    updateRegions s (fun rs => rs.map (fun r => if r.id ∈ s.selectedRegions then { r with status := "flagged" } else r))
  else s

/-- `handleDelete`: remove every selected region, commit one snapshot,
then clear the selection. -/
def handleDelete (s : AppState) : AppState :=
  if s.selectedRegions ≠ [] then
    { updateRegions s (fun rs => rs.filter (fun r => decide (r.id ∉ s.selectedRegions))) with selectedRegions := [] }
  else s

/-- `handleBulkChangeLabel(newLabel)`: relabel every selected region,
commit one snapshot, then clear the selection. -/
def handleBulkChangeLabel (s : AppState) (newLabel : String) : AppState :=
  if s.selectedRegions ≠ [] then
    { updateRegions s (fun rs => rs.map (fun r => if r.id ∈ s.selectedRegions then { r with label := newLabel } else r)) with selectedRegions := [] }
  else s

lemma updateRegions_char (s : AppState) (f : List Region → List Region) (img : Image)
    (hci : currentImage s = some img)
    (hidx : s.historyIndex = (s.history.length : ℤ) - 1)
    (hcap : s.history.length < 50) :
    rbiGet (updateRegions s f).regions img.id = f (rbiGet s.regions img.id) ∧
    (updateRegions s f).history
      = s.history ++ [rbiSet s.regions img.id (f (rbiGet s.regions img.id))] ∧
    (updateRegions s f).selectedRegions = s.selectedRegions := by
  rw [updateRegions, hci]
  obtain ⟨t1, t2, t3⟩ := saveToHistory_top
    ({ s with regions := rbiSet s.regions img.id (f (rbiGet s.regions img.id)) } : AppState)
    (rbiSet s.regions img.id (f (rbiGet s.regions img.id))) (by simpa using hidx)
    (by simpa using hcap)
  refine ⟨?_, ?_, rfl⟩
  · rw [show (commitRegions s (rbiSet s.regions img.id (f (rbiGet s.regions img.id)))).regions = rbiSet s.regions img.id (f (rbiGet s.regions img.id)) from rfl]
    exact rbiGet_rbiSet _ _ _
  · exact t1

/-- **C9 (amended)** — each bulk operation acts on every currently selected
region id of the current image and commits exactly one combined snapshot;
approve, delete and change-label clear the selection afterwards, while
flag leaves it unchanged. -/
theorem bulk_ops_selection_and_snapshot (s : AppState) (img : Image) (newLabel : String)
    (hci : currentImage s = some img) (hsel : s.selectedRegions ≠ [])
    (hidx : s.historyIndex = (s.history.length : ℤ) - 1) (hcap : s.history.length < 50) :
    (rbiGet (handleApprove s).regions img.id
        = (rbiGet s.regions img.id).map (fun r => if r.id ∈ s.selectedRegions then { r with status := "approved" } else r) ∧
      (handleApprove s).history.length = s.history.length + 1 ∧
      (handleApprove s).selectedRegions = []) ∧
    (rbiGet (handleFlag s).regions img.id
        = (rbiGet s.regions img.id).map (fun r => if r.id ∈ s.selectedRegions then { r with status := "flagged" } else r) ∧
      (handleFlag s).history.length = s.history.length + 1 ∧
      (handleFlag s).selectedRegions = s.selectedRegions) ∧
    (rbiGet (handleDelete s).regions img.id
        = (rbiGet s.regions img.id).filter (fun r => decide (r.id ∉ s.selectedRegions)) ∧
      (handleDelete s).history.length = s.history.length + 1 ∧
      (handleDelete s).selectedRegions = []) ∧
    (rbiGet (handleBulkChangeLabel s newLabel).regions img.id
        = (rbiGet s.regions img.id).map (fun r => if r.id ∈ s.selectedRegions then { r with label := newLabel } else r) ∧
      (handleBulkChangeLabel s newLabel).history.length = s.history.length + 1 ∧
      (handleBulkChangeLabel s newLabel).selectedRegions = []) := by
  obtain ⟨a1, a2, a3⟩ := updateRegions_char s
    (fun rs => rs.map (fun r => if r.id ∈ s.selectedRegions then { r with status := "approved" } else r)) img hci hidx hcap
  obtain ⟨f1, f2, f3⟩ := updateRegions_char s
    (fun rs => rs.map (fun r => if r.id ∈ s.selectedRegions then { r with status := "flagged" } else r)) img hci hidx hcap
  obtain ⟨d1, d2, d3⟩ := updateRegions_char s
    (fun rs => rs.filter (fun r => decide (r.id ∉ s.selectedRegions))) img hci hidx hcap
  obtain ⟨l1, l2, l3⟩ := updateRegions_char s
    (fun rs => rs.map (fun r => if r.id ∈ s.selectedRegions then { r with label := newLabel } else r)) img hci hidx hcap
  refine ⟨⟨?_, ?_, ?_⟩, ⟨?_, ?_, ?_⟩, ⟨?_, ?_, ?_⟩, ?_, ?_, ?_⟩
  · rw [handleApprove, if_pos hsel]; exact a1
  · rw [handleApprove, if_pos hsel]
    show (updateRegions s _).history.length = _
    rw [a2, List.length_append]; simp
  · rw [handleApprove, if_pos hsel]
  · rw [handleFlag, if_pos hsel]; exact f1
  · rw [handleFlag, if_pos hsel]
    rw [f2, List.length_append]; simp
  · rw [handleFlag, if_pos hsel]; exact f3
  · rw [handleDelete, if_pos hsel]; exact d1
  · rw [handleDelete, if_pos hsel]
    show (updateRegions s _).history.length = _
    rw [d2, List.length_append]; simp
  · rw [handleDelete, if_pos hsel]
  · rw [handleBulkChangeLabel, if_pos hsel]; exact l1
  · rw [handleBulkChangeLabel, if_pos hsel]
    show (updateRegions s _).history.length = _
    rw [l2, List.length_append]; simp
  · rw [handleBulkChangeLabel, if_pos hsel]

/-- One selected region on one image, for the bulk-operation facts. -/
def bulkScenarioState : AppState :=
  { initialAppState with images := [⟨"imgA", "a.png", 800, 500⟩], regions := [("imgA", [⟨1, "car", 1, "auto", 0, 0, 30, 30⟩])], selectedRegions := [1] }

/-- **C9 counterexample** — `handleApprove` clears the selection (and so
does change-label): the claim that approve, flag and change-label leave
the selection unchanged is false; only flag preserves it. -/
theorem approve_clears_selection_counterexample :
    (handleApprove bulkScenarioState).selectedRegions = [] ∧
    (handleBulkChangeLabel bulkScenarioState "truck").selectedRegions = [] ∧
    bulkScenarioState.selectedRegions = [1] ∧
    ([] : List ℤ) ≠ [1] :=
  ⟨rfl, rfl, rfl, by simp⟩

/-- Witness for C9 at the one-region scenario state. -/
theorem bulk_ops_selection_and_snapshot_witness :
    (currentImage bulkScenarioState = some ⟨"imgA", "a.png", 800, 500⟩ ∧
      bulkScenarioState.selectedRegions ≠ [] ∧
      bulkScenarioState.historyIndex = (bulkScenarioState.history.length : ℤ) - 1 ∧
      bulkScenarioState.history.length < 50) ∧
    (handleFlag bulkScenarioState).selectedRegions = bulkScenarioState.selectedRegions ∧
    (handleDelete bulkScenarioState).selectedRegions = [] ∧
    (handleApprove bulkScenarioState).history.length
      = bulkScenarioState.history.length + 1 :=
  ⟨⟨rfl, by simp [bulkScenarioState, initialAppState], rfl, by norm_num [bulkScenarioState, initialAppState]⟩,
    (bulk_ops_selection_and_snapshot bulkScenarioState ⟨"imgA", "a.png", 800, 500⟩ "x"
      rfl (by simp [bulkScenarioState, initialAppState]) rfl
      (by norm_num [bulkScenarioState, initialAppState])).2.1.2.2,
    (bulk_ops_selection_and_snapshot bulkScenarioState ⟨"imgA", "a.png", 800, 500⟩ "x"
      rfl (by simp [bulkScenarioState, initialAppState]) rfl
      (by norm_num [bulkScenarioState, initialAppState])).2.2.1.2.2,
    (bulk_ops_selection_and_snapshot bulkScenarioState ⟨"imgA", "a.png", 800, 500⟩ "x"
      rfl (by simp [bulkScenarioState, initialAppState]) rfl
      (by norm_num [bulkScenarioState, initialAppState])).1.2.1⟩

/-- JS `a || b` on a possibly-missing number: `null`, `undefined` and `0`
fall through to the default. -/
def jsOrQ (v : Option ℚ) (d : ℚ) : ℚ :=
  match v with
  | none => d
  | some q => if q = 0 then d else q

/-- JS `a || b` on a possibly-missing string: `null`, `undefined` and `""`
fall through to the default. -/
def jsOrS (v : Option String) (d : String) : String :=
  match v with
  | none => d
  | some str => if str = "" then d else str

/-- A remote detection item as consumed by `executeDetect` /
`executeDetectAll`: `{ label, class, confidence, score, bbox }`, every
field possibly missing. -/
structure Det0 where
  label : Option String
  cls : Option String
  confidence : Option ℚ
  score : Option ℚ
  bbox : Option (ℚ × ℚ × ℚ × ℚ)
  deriving DecidableEq, Repr

/-- The per-detection mapping of `executeDetect`:
`{ id: Date.now()+idx, label: det.label || det.class || "object",
confidence: det.confidence || det.score || 0, status: "auto",
x: det.bbox?.[0] || 0, y: det.bbox?.[1] || 0, w: det.bbox?.[2] || 100,
h: det.bbox?.[3] || 100 }` — note: no clamping to the image bounds. -/
def detToRegion (baseId : ℤ) (idx : ℕ) (det : Det0) : Region :=
  { id := baseId + idx, label := jsOrS det.label (jsOrS det.cls "object"),
    confidence := jsOrQ det.confidence (jsOrQ det.score 0), status := "auto",
    x := jsOrQ (det.bbox.map (fun b => b.1)) 0,
    y := jsOrQ (det.bbox.map (fun b => b.2.1)) 0,
    w := jsOrQ (det.bbox.map (fun b => b.2.2.1)) 100,
    h := jsOrQ (det.bbox.map (fun b => b.2.2.2)) 100 }

/-- `(result.detections || []).map((det, idx) => …)`. -/
def detMapGo (baseId : ℤ) : ℕ → List Det0 → List Region
  | _, [] => []
  | idx, d :: rest => detToRegion baseId idx d :: detMapGo baseId (idx + 1) rest

/-- `executeDetect()`: on a successful response, replace the current
image's region list with the mapped detections and commit one snapshot;
a thrown request (`none`) only surfaces a toast — no state change.
`now` is `Date.now()`. -/
def executeDetect (s : AppState) (now : ℤ) (result : Option (List Det0)) : AppState :=
  match currentImage s, result with
  | some img, some dets =>
    commitRegions s (rbiSet s.regions img.id (detMapGo now 0 dets))
  | _, _ => s

/-- The completion toast of `executeDetectAll`:
`Detected ${totalDetected} objects in ${images.length} images`. -/
structure BatchReport where
  totalDetected : ℕ
  imagesTotal : ℕ
  deriving DecidableEq, Repr

/-- One loop iteration of `executeDetectAll` over `(img, response)`:
increments `processedCount`, and on success stores the mapped detections
under the image id and adds to `totalDetected`; a caught failure only
logs and skips. -/
def detectAllStep (now : ℤ) (acc : List (String × List Region) × ℕ × ℕ)
    (pr : Image × Option (List Det0)) : List (String × List Region) × ℕ × ℕ :=
  let processed := acc.2.2 + 1
  match pr.2 with
  | none => (acc.1, acc.2.1, processed)
  | some dets =>
    let detections := detMapGo (now + processed * 10000) 0 dets
    (acc.1 ++ [(pr.1.id, detections)], acc.2.1 + detections.length, processed)

/-- `executeDetectAll()`: sequentially process every image with its
response (`none` = the request threw and is caught), merge
`{ ...regions, ...allNewRegions }`, commit one combined snapshot, and
report the toast values. -/
def executeDetectAll (s : AppState) (now : ℤ)
    (responses : List (Option (List Det0))) : AppState × BatchReport :=
  let r := (s.images.zip responses).foldl (detectAllStep now) ([], 0, 0)
  let newRegions := r.1.foldl (fun m kv => rbiSet m kv.1 kv.2) s.regions
  (commitRegions s newRegions, ⟨r.2.1, s.images.length⟩)

/-- Three imported 100 × 100 images and no regions, for the all-images
detect scenario. -/
def batchScenarioState : AppState :=
  { initialAppState with images := [⟨"a", "a.png", 100, 100⟩, ⟨"b", "b.png", 100, 100⟩, ⟨"c", "c.png", 100, 100⟩] }

/-- **C6 (amended)** — an all-images detect catches a failing image's
request and skips that image without aborting the rest, merges all
per-image results and commits them as one combined snapshot, and reports
the total objects detected together with the TOTAL number of images (the
completion message says `in ${images.length} images`, not the number that
succeeded); in the 3-image scenario with image 2 throwing, images 1 and 3
get fresh regions, image 2 keeps its old (empty) list, and the report
counts 3 images. -/
theorem detectAll_isolation_and_report (s : AppState) (now : ℤ)
    (responses : List (Option (List Det0)))
    (hidx : s.historyIndex = (s.history.length : ℤ) - 1)
    (hcap : s.history.length < 50) :
    ((executeDetectAll s now responses).2).imagesTotal = s.images.length ∧
    (executeDetectAll s now responses).1.history.length = s.history.length + 1 ∧
    rbiGet (executeDetectAll batchScenarioState 0 [some [⟨some "car", none, some 1, none, some (0, 0, 10, 10)⟩], none, some [⟨some "car", none, some 1, none, some (0, 0, 10, 10)⟩]]).1.regions "b"
      = rbiGet batchScenarioState.regions "b" ∧
    (rbiGet (executeDetectAll batchScenarioState 0 [some [⟨some "car", none, some 1, none, some (0, 0, 10, 10)⟩], none, some [⟨some "car", none, some 1, none, some (0, 0, 10, 10)⟩]]).1.regions "a").length = 1 ∧
    (rbiGet (executeDetectAll batchScenarioState 0 [some [⟨some "car", none, some 1, none, some (0, 0, 10, 10)⟩], none, some [⟨some "car", none, some 1, none, some (0, 0, 10, 10)⟩]]).1.regions "c").length = 1 ∧
    (executeDetectAll batchScenarioState 0 [some [⟨some "car", none, some 1, none, some (0, 0, 10, 10)⟩], none, some [⟨some "car", none, some 1, none, some (0, 0, 10, 10)⟩]]).2
      = ⟨2, 3⟩ := by
  refine ⟨rfl, ?_, rfl, rfl, rfl, rfl⟩
  obtain ⟨t1, t2, t3⟩ := saveToHistory_top
    ({ s with regions := (((s.images.zip responses).foldl (detectAllStep now) ([], 0, 0)).1.foldl (fun m kv => rbiSet m kv.1 kv.2) s.regions) } : AppState)
    (((s.images.zip responses).foldl (detectAllStep now) ([], 0, 0)).1.foldl (fun m kv => rbiSet m kv.1 kv.2) s.regions)
    (by simpa using hidx) (by simpa using hcap)
  show (saveToHistory _ _).history.length = _
  rw [t1]
  show (s.history ++ [_]).length = _
  rw [List.length_append]
  simp

/-- **C6 counterexample** — in the 3-image run where image 2's request
throws, 2 images succeed but the aggregate completion report counts 3
images: the report states the total image count, not the number that
succeeded. -/
theorem detectAll_report_counterexample :
    ((executeDetectAll batchScenarioState 0 [some [⟨some "car", none, some 1, none, some (0, 0, 10, 10)⟩], none, some [⟨some "car", none, some 1, none, some (0, 0, 10, 10)⟩]]).2).imagesTotal = 3 ∧
    ([some [⟨some "car", none, some 1, none, some (0, 0, 10, 10)⟩], none, some [⟨some "car", none, some 1, none, some (0, 0, 10, 10)⟩]] : List (Option (List Det0))).countP (fun o => o.isSome) = 2 ∧
    (3 : ℕ) ≠ 2 :=
  ⟨rfl, rfl, by norm_num⟩

/-- Witness for C6 at the 3-image scenario with the middle request
throwing. -/
theorem detectAll_isolation_and_report_witness :
    (batchScenarioState.historyIndex = (batchScenarioState.history.length : ℤ) - 1 ∧
      batchScenarioState.history.length < 50) ∧
    ((executeDetectAll batchScenarioState 0 [some [⟨some "car", none, some 1, none, some (0, 0, 10, 10)⟩], none, some [⟨some "car", none, some 1, none, some (0, 0, 10, 10)⟩]]).2).imagesTotal
      = batchScenarioState.images.length ∧
    (executeDetectAll batchScenarioState 0 [some [⟨some "car", none, some 1, none, some (0, 0, 10, 10)⟩], none, some [⟨some "car", none, some 1, none, some (0, 0, 10, 10)⟩]]).1.history.length
      = batchScenarioState.history.length + 1 :=
  ⟨⟨rfl, by norm_num [batchScenarioState, initialAppState]⟩,
    (detectAll_isolation_and_report batchScenarioState 0
      [some [⟨some "car", none, some 1, none, some (0, 0, 10, 10)⟩], none, some [⟨some "car", none, some 1, none, some (0, 0, 10, 10)⟩]]
      rfl (by norm_num [batchScenarioState, initialAppState])).1,
    (detectAll_isolation_and_report batchScenarioState 0
      [some [⟨some "car", none, some 1, none, some (0, 0, 10, 10)⟩], none, some [⟨some "car", none, some 1, none, some (0, 0, 10, 10)⟩]]
      rfl (by norm_num [batchScenarioState, initialAppState])).2.1⟩

/-- One imported 100 × 100 image, for the unclamped-detect fact. -/
def detectCexState : AppState :=
  { initialAppState with images := [⟨"a", "a.png", 100, 100⟩] }

/-- **C1 counterexample** — a single-image detect commits the service box
verbatim: a detection with bbox (90, 90, 50, 50) on a 100 × 100 image is
committed as a region with x + w = 140 > 100, violating the claimed
invariant; `executeDetect` performs no clamping. -/
theorem detect_commit_unclamped_counterexample :
    (currentImage detectCexState).map (fun img => (img.width, img.height))
      = some ((100 : ℚ), (100 : ℚ)) ∧
    rbiGet (executeDetect detectCexState 5
        (some [⟨none, none, some 1, none, some (90, 90, 50, 50)⟩])).regions "a"
      = [⟨5, "object", 1, "auto", 90, 90, 50, 50⟩] ∧
    ¬((90 : ℚ) + 50 ≤ 100) := by
  refine ⟨rfl, ?_, by norm_num⟩
  norm_num [executeDetect, detMapGo, detToRegion, jsOrQ, jsOrS, rbiGet, rbiSet,
    commitRegions, saveToHistory, currentImage, detectCexState, initialAppState,
    List.lookup]

lemma clamp_nonneg (v hi : ℚ) : 0 ≤ clamp v 0 hi := le_max_left 0 _

lemma clamp_le_hi (v lo hi : ℚ) (h : lo ≤ hi) : clamp v lo hi ≤ hi :=
  max_le h (min_le_left hi v)

lemma clamp_add_min_le (x w W : ℚ) : clamp x 0 (W - w) + min w W ≤ W := by
  unfold clamp
  rcases le_or_lt (min (W - w) x) 0 with h | h
  · rw [max_eq_left h]
    have := min_le_right w W
    linarith
  · rw [max_eq_right h.le]
    have h1 := min_le_left (W - w) x
    have h2 := min_le_left w W
    linarith

lemma draw_creates_in_bounds (s : AppState) (now : ℤ) (p1 p2 : ℚ × ℚ) (img : Image)
    (hdraw : s.isDrawing = true) (hs : s.drawStart = some p1) (hc : s.drawCurrent = some p2)
    (hci : currentImage s = some img)
    (hdrag : s.isDragging = false) (hres : s.isResizing = false) :
    ∀ r ∈ rbiGet (handleCanvasMouseUp s now).regions img.id,
      r ∈ rbiGet s.regions img.id ∨
      (0 ≤ r.x ∧ 0 ≤ r.y ∧ r.x + r.w ≤ img.width ∧ r.y + r.h ≤ img.height) := by
  rw [mouseUp_eq_drawPhase s now hdrag hres, mouseUpDrawPhase, if_pos hdraw, hs, hc, hci]
  simp only []
  intro r hr
  by_cases hwh : (10 < |(canvasToImageCoords p2.1 p2.2 img.width img.height).1
        - (canvasToImageCoords p1.1 p1.2 img.width img.height).1|
      ∧ 10 < |(canvasToImageCoords p2.1 p2.2 img.width img.height).2
        - (canvasToImageCoords p1.1 p1.2 img.width img.height).2|)
  · rw [if_pos hwh] at hr
    simp only [commitRegions, saveToHistory] at hr
    rw [rbiGet_rbiSet] at hr
    rcases List.mem_append.mp hr with hold | hnew
    · exact Or.inl hold
    · rcases List.mem_singleton.mp hnew with rfl
      exact Or.inr ⟨clamp_nonneg _ _, clamp_nonneg _ _,
        clamp_add_min_le _ _ _, clamp_add_min_le _ _ _⟩
  · rw [if_neg hwh] at hr
    exact Or.inl hr

lemma drag_moves_in_bounds (s : AppState) (c : ℚ × ℚ) (img : Image) (dragId : ℤ)
    (hci : currentImage s = some img) (hdraw : s.isDrawing = false)
    (hdrag : s.isDragging = true) (hid : s.dragRegionId = some dragId) (hne : dragId ≠ 0)
    (hsizes : ∀ r ∈ rbiGet s.regions img.id, r.w ≤ img.width ∧ r.h ≤ img.height) :
    ∀ r ∈ rbiGet (handleCanvasMouseMove s c).regions img.id,
      r ∈ rbiGet s.regions img.id ∨
      (0 ≤ r.x ∧ 0 ≤ r.y ∧ r.x + r.w ≤ img.width ∧ r.y + r.h ≤ img.height) := by
  rw [handleCanvasMouseMove, hci]
  simp only []
  rw [if_neg (by rw [hdraw]; simp),
    if_pos ⟨hdrag, by rw [hid]; simp [jsTruthyId]; exact hne⟩, hid]
  simp only []
  rw [rbiGet_rbiSet]
  intro r hr
  obtain ⟨r0, hr0, rfl⟩ := List.mem_map.mp hr
  by_cases hid0 : r0.id = dragId
  · rw [if_pos hid0]
    obtain ⟨hw, hh⟩ := hsizes r0 hr0
    have hcx := clamp_le_hi (canvasToImageCoords (c.1 - s.dragOffset.1)
      (c.2 - s.dragOffset.2) img.width img.height).1 0 (img.width - r0.w) (by linarith)
    have hcy := clamp_le_hi (canvasToImageCoords (c.1 - s.dragOffset.1)
      (c.2 - s.dragOffset.2) img.width img.height).2 0 (img.height - r0.h) (by linarith)
    refine Or.inr ⟨clamp_nonneg _ _, clamp_nonneg _ _, ?_, ?_⟩
    · show clamp _ 0 (img.width - r0.w) + r0.w ≤ img.width
      linarith
    · show clamp _ 0 (img.height - r0.h) + r0.h ≤ img.height
      linarith
  · rw [if_neg hid0]
    exact Or.inl hr0

lemma resize_keeps_bounds (s : AppState) (c : ℚ × ℚ) (img : Image) (rid : ℤ)
    (handle : String) (rStart : ℚ × ℚ)
    (hci : currentImage s = some img) (hdraw : s.isDrawing = false)
    (hdrag : s.isDragging = false) (hres : s.isResizing = true)
    (hrid : s.resizeRegionId = some rid) (hrne : rid ≠ 0)
    (hhandle : s.resizeHandle = some handle) (hhne : handle ≠ "")
    (hrs : s.resizeStart = some rStart)
    (hWE : ¬(handle.contains 'w' = true ∧ handle.contains 'e' = true))
    (hNS : ¬(handle.contains 'n' = true ∧ handle.contains 's' = true))
    (hbounds : ∀ r ∈ rbiGet s.regions img.id,
      0 ≤ r.x ∧ 0 ≤ r.y ∧ r.x + r.w ≤ img.width ∧ r.y + r.h ≤ img.height
        ∧ 20 ≤ r.w ∧ 20 ≤ r.h) :
    ∀ r ∈ rbiGet (handleCanvasMouseMove s c).regions img.id,
      0 ≤ r.x ∧ 0 ≤ r.y ∧ r.x + r.w ≤ img.width ∧ r.y + r.h ≤ img.height := by
  rw [handleCanvasMouseMove, hci]
  simp only []
  rw [if_neg (by rw [hdraw]; simp),
    if_neg (by rw [hdrag]; simp),
    if_pos ⟨hres, by rw [hrid]; simp [jsTruthyId]; exact hrne,
      by rw [hhandle]; simp [jsTruthyStr]; exact hhne, by rw [hrs]; simp⟩,
    hrid, hhandle, hrs]
  simp only []
  rcases hfind : (rbiGet s.regions img.id).find? (fun r => decide (r.id = rid))
    with _ | region
  · rw [hfind]
    simp only []
    intro r hr
    obtain h := hbounds r hr
    exact ⟨h.1, h.2.1, h.2.2.1, h.2.2.2.1⟩
  · rw [hfind]
    simp only []
    rw [rbiGet_rbiSet]
    intro r hr
    obtain ⟨r0, hr0, rfl⟩ := List.mem_map.mp hr
    by_cases hid0 : r0.id = rid
    · rw [if_pos hid0]
      obtain ⟨hx0, hy0, hxw, hyh, hw20, hh20⟩ :=
        hbounds region (List.mem_of_find?_eq_some hfind)
      dsimp only
      refine ⟨?_, ?_, ?_, ?_⟩
      · by_cases hw : handle.contains 'w' = true
        · rw [if_pos hw]
          exact clamp_nonneg _ _
        · rw [if_neg hw]
          exact hx0
      · by_cases hn : handle.contains 'n' = true
        · rw [if_pos hn]
          exact clamp_nonneg _ _
        · rw [if_neg hn]
          exact hy0
      · by_cases he : handle.contains 'e' = true
        · have hcl := clamp_le_hi ((canvasToImageCoords c.1 c.2 img.width img.height).1
            - region.x) 20 (img.width - region.x) (by linarith)
          by_cases hw : handle.contains 'w' = true
          · exact absurd ⟨hw, he⟩ hWE
          · rw [if_pos he, if_neg hw]
            linarith
        · rw [if_neg he]
          by_cases hw : handle.contains 'w' = true
          · rw [if_pos hw, if_pos hw]
            have hcl := clamp_le_hi (region.x
              + ((canvasToImageCoords c.1 c.2 img.width img.height).1 - rStart.1))
              0 (region.x + region.w - 20) (by linarith)
            linarith
          · rw [if_neg hw, if_neg hw]
            exact hxw
      · by_cases hs2 : handle.contains 's' = true
        · have hcl := clamp_le_hi ((canvasToImageCoords c.1 c.2 img.width img.height).2
            - region.y) 20 (img.height - region.y) (by linarith)
          by_cases hn : handle.contains 'n' = true
          · exact absurd ⟨hn, hs2⟩ hNS
          · rw [if_pos hs2, if_neg hn]
            linarith
        · rw [if_neg hs2]
          by_cases hn : handle.contains 'n' = true
          · rw [if_pos hn, if_pos hn]
            have hcl := clamp_le_hi (region.y
              + ((canvasToImageCoords c.1 c.2 img.width img.height).2 - rStart.2))
              0 (region.y + region.h - 20) (by linarith)
            linarith
          · rw [if_neg hn, if_neg hn]
            exact hyh
    · rw [if_neg hid0]
      obtain h := hbounds r0 hr0
      exact ⟨h.1, h.2.1, h.2.2.1, h.2.2.2.1⟩

/-- **C1 (amended)** — the gesture mutations clamp to image bounds: a
completed draw gesture only adds regions satisfying 0 ≤ x, 0 ≤ y,
x + w ≤ imageWidth, y + h ≤ imageHeight; a drag move keeps every region
either untouched or inside bounds (given its size fits the image); a
resize keeps every region inside bounds (given all regions start inside
bounds with the 20-pixel minimum size and the handle is one of the eight
valid handles).  Detection commits, by contrast, insert server boxes
verbatim (see the counterexample), so the invariant holds for committed
maps only as far as detection responses are themselves in bounds. -/
theorem gesture_mutations_clamped :
    (∀ (s : AppState) (now : ℤ) (p1 p2 : ℚ × ℚ) (img : Image),
      s.isDrawing = true → s.drawStart = some p1 → s.drawCurrent = some p2 →
      currentImage s = some img → s.isDragging = false → s.isResizing = false →
      ∀ r ∈ rbiGet (handleCanvasMouseUp s now).regions img.id,
        r ∈ rbiGet s.regions img.id ∨
        (0 ≤ r.x ∧ 0 ≤ r.y ∧ r.x + r.w ≤ img.width ∧ r.y + r.h ≤ img.height)) ∧
    (∀ (s : AppState) (c : ℚ × ℚ) (img : Image) (dragId : ℤ),
      currentImage s = some img → s.isDrawing = false → s.isDragging = true →
      s.dragRegionId = some dragId → dragId ≠ 0 →
      (∀ r ∈ rbiGet s.regions img.id, r.w ≤ img.width ∧ r.h ≤ img.height) →
      ∀ r ∈ rbiGet (handleCanvasMouseMove s c).regions img.id,
        r ∈ rbiGet s.regions img.id ∨
        (0 ≤ r.x ∧ 0 ≤ r.y ∧ r.x + r.w ≤ img.width ∧ r.y + r.h ≤ img.height)) ∧
    (∀ (s : AppState) (c : ℚ × ℚ) (img : Image) (rid : ℤ) (handle : String)
        (rStart : ℚ × ℚ),
      currentImage s = some img → s.isDrawing = false → s.isDragging = false →
      s.isResizing = true → s.resizeRegionId = some rid → rid ≠ 0 →
      s.resizeHandle = some handle → handle ≠ "" → s.resizeStart = some rStart →
      ¬(handle.contains 'w' = true ∧ handle.contains 'e' = true) →
      ¬(handle.contains 'n' = true ∧ handle.contains 's' = true) →
      (∀ r ∈ rbiGet s.regions img.id,
        0 ≤ r.x ∧ 0 ≤ r.y ∧ r.x + r.w ≤ img.width ∧ r.y + r.h ≤ img.height
          ∧ 20 ≤ r.w ∧ 20 ≤ r.h) →
      ∀ r ∈ rbiGet (handleCanvasMouseMove s c).regions img.id,
        0 ≤ r.x ∧ 0 ≤ r.y ∧ r.x + r.w ≤ img.width ∧ r.y + r.h ≤ img.height) :=
  ⟨fun s now p1 p2 img h1 h2 h3 h4 h5 h6 =>
      draw_creates_in_bounds s now p1 p2 img h1 h2 h3 h4 h5 h6,
    fun s c img dragId h1 h2 h3 h4 h5 h6 =>
      drag_moves_in_bounds s c img dragId h1 h2 h3 h4 h5 h6,
    fun s c img rid handle rStart h1 h2 h3 h4 h5 h6 h7 h8 h9 h10 h11 h12 =>
      resize_keeps_bounds s c img rid handle rStart h1 h2 h3 h4 h5 h6 h7 h8 h9 h10 h11 h12⟩

/-- Witness for C1 at the concrete drag state: moving the 50 × 50 region
of an 800 × 500 image keeps every region of the result in bounds or
untouched. -/
theorem gesture_mutations_clamped_witness :
    (currentImage dragWitnessState = some ⟨"imgA", "a.png", 800, 500⟩ ∧
      dragWitnessState.isDrawing = false ∧ dragWitnessState.isDragging = true ∧
      dragWitnessState.dragRegionId = some 7 ∧ (7 : ℤ) ≠ 0 ∧
      (∀ r ∈ rbiGet dragWitnessState.regions "imgA", r.w ≤ (800 : ℚ) ∧ r.h ≤ (500 : ℚ))) ∧
    (∀ r ∈ rbiGet (handleCanvasMouseMove dragWitnessState ((200 : ℚ), (200 : ℚ))).regions "imgA",
      r ∈ rbiGet dragWitnessState.regions "imgA" ∨
      (0 ≤ r.x ∧ 0 ≤ r.y ∧ r.x + r.w ≤ (800 : ℚ) ∧ r.y + r.h ≤ (500 : ℚ))) := by
  have hsz : ∀ r ∈ rbiGet dragWitnessState.regions "imgA",
      r.w ≤ (800 : ℚ) ∧ r.h ≤ (500 : ℚ) := by
    intro r hr
    simp only [dragWitnessState, initialAppState, rbiGet, List.lookup] at hr
    norm_num at hr
    rw [hr]
    norm_num
  refine ⟨⟨rfl, rfl, rfl, rfl, by norm_num, hsz⟩, ?_⟩
  exact gesture_mutations_clamped.2.1 dragWitnessState ((200 : ℚ), (200 : ℚ))
    ⟨"imgA", "a.png", 800, 500⟩ 7 rfl rfl rfl rfl (by norm_num) hsz

/-- A remote detection item as decoded by
`GroundingDINODetector.transformDetections`: `bbox` is the COCO
`[x, y, width, height]` array, `box` is either the `[x1, y1, x2, y2]`
array (`Sum.inl`) or the `{x, y, width, height}` object (`Sum.inr`), and
the remaining fields mirror the duck-typed direct format. -/
structure DinoDet where
  bbox : Option (ℚ × ℚ × ℚ × ℚ)
  box : Option ((ℚ × ℚ × ℚ × ℚ) ⊕ (ℚ × ℚ × ℚ × ℚ))
  x : Option ℚ
  y : Option ℚ
  width : Option ℚ
  w : Option ℚ
  height : Option ℚ
  h : Option ℚ
  label : Option String
  cls : Option String
  className : Option String
  confidence : Option ℚ
  score : Option ℚ
  deriving DecidableEq, Repr

/-- The standard-format output item of `transformDetections`. -/
structure OutDet where
  x : ℚ
  y : ℚ
  width : ℚ
  height : ℚ
  confidence : ℚ
  label : String
  className : String
  deriving DecidableEq, Repr

/-- The per-item body of `transformDetections`: coordinate-format
dispatch by key presence, the all-four-below-1 normalized-coordinate
heuristic, label fallback chain, `confidence || score || 0.5`, and the
final clip `x ↦ max(0, x)`, `width ↦ min(imgWidth − x, width)`. -/
def transformOne (imgWidth imgHeight : ℚ) (idx : ℕ) (det : DinoDet) : OutDet :=
  let raw : ℚ × ℚ × ℚ × ℚ :=
    match det.bbox with
    | some b => b
    | none =>
      match det.box with
      | some (Sum.inl a) => (a.1, a.2.1, a.2.2.1 - a.1, a.2.2.2 - a.2.1)
      | some (Sum.inr o) => o
      | none => (jsOrQ det.x 0, jsOrQ det.y 0, jsOrQ det.width (jsOrQ det.w 0), jsOrQ det.height (jsOrQ det.h 0))
  let scaled : ℚ × ℚ × ℚ × ℚ :=
    if raw.1 < 1 ∧ raw.2.1 < 1 ∧ raw.2.2.1 < 1 ∧ raw.2.2.2 < 1 then
      (raw.1 * imgWidth, raw.2.1 * imgHeight, raw.2.2.1 * imgWidth, raw.2.2.2 * imgHeight)
    else raw
  let label := jsOrS det.label (jsOrS det.cls (jsOrS det.className ("object_" ++ toString idx)))
  let confidence := jsOrQ det.confidence (jsOrQ det.score (1/2))
  ⟨max 0 scaled.1, max 0 scaled.2.1, min (imgWidth - scaled.1) scaled.2.2.1,
    min (imgHeight - scaled.2.1) scaled.2.2.2, confidence, label, label⟩

/-- `detections.map((det, idx) => …)` with explicit running index. -/
def tdGo (imgWidth imgHeight : ℚ) : ℕ → List DinoDet → List OutDet
  | _, [] => []
  | idx, d :: rest => transformOne imgWidth imgHeight idx d :: tdGo imgWidth imgHeight (idx + 1) rest

/-- `transformDetections(apiResponse, imgWidth, imgHeight)` applied to the
already-unwrapped detections list (the `detections` / `predictions` /
bare-array response unwrapping selects this list). -/
def transformDetections (dets : List DinoDet) (imgWidth imgHeight : ℚ) : List OutDet :=
  tdGo imgWidth imgHeight 0 dets

lemma tdGo_get? (imgWidth imgHeight : ℚ) : ∀ (dets : List DinoDet) (idx i : ℕ),
    (tdGo imgWidth imgHeight idx dets).get? i
      = (dets.get? i).map (transformOne imgWidth imgHeight (idx + i)) := by
  intro dets
  induction dets with
  | nil => intro idx i; simp [tdGo]
  | cons d rest ih =>
    intro idx i
    match i with
    | 0 => simp [tdGo]
    | i + 1 =>
      rw [tdGo]
      show (tdGo imgWidth imgHeight (idx + 1) rest).get? i = _
      rw [ih (idx + 1) i]
      have : idx + 1 + i = idx + (i + 1) := by omega
      rw [this]
      rfl

/-- **C10** — in `transformDetections`, an item whose `confidence` field is
present but equal to 0 and which has no `score` field is emitted with
confidence 0.5: the `confidence || score || 0.5` chain coerces the falsy
zero to the missing-confidence default, so a genuine zero confidence is
never preserved in the output. -/
theorem zero_confidence_coerced_to_default (dets : List DinoDet)
    (imgWidth imgHeight : ℚ) (i : ℕ) (det : DinoDet)
    (hget : dets.get? i = some det)
    (hconf : det.confidence = some 0) (hscore : det.score = none) :
    ((transformDetections dets imgWidth imgHeight).get? i).map (fun o => o.confidence)
      = some (1 / 2) := by
  rw [transformDetections, tdGo_get? imgWidth imgHeight dets 0 i, hget]
  show some ((transformOne imgWidth imgHeight (0 + i) det).confidence) = some (1 / 2)
  rw [transformOne]
  simp only [hconf, hscore, jsOrQ]
  norm_num

/-- Witness for C10: a detection with `confidence: 0`, no `score`, and a
COCO bbox is emitted with confidence 0.5. -/
theorem zero_confidence_coerced_to_default_witness :
    (([⟨some (10, 10, 5, 5), none, none, none, none, none, none, none, some "cat", none, none, some 0, none⟩] : List DinoDet).get? 0
      = some ⟨some (10, 10, 5, 5), none, none, none, none, none, none, none, some "cat", none, none, some 0, none⟩) ∧
    ((transformDetections [⟨some (10, 10, 5, 5), none, none, none, none, none, none, none, some "cat", none, none, some 0, none⟩] 100 100).get? 0).map (fun o => o.confidence)
      = some (1 / 2) :=
  ⟨rfl,
    zero_confidence_coerced_to_default
      [⟨some (10, 10, 5, 5), none, none, none, none, none, none, none, some "cat", none, none, some 0, none⟩]
      100 100 0 ⟨some (10, 10, 5, 5), none, none, none, none, none, none, none, some "cat", none, none, some 0, none⟩
      rfl rfl rfl⟩
